import Mathlib

/-!
Verification development for the survey knowledge-graph builder
(`kg_builder.py` and `neo4j_graph_builder.py`).

A table cell is modelled as `Option String`: `none` stands for a
null/NaN cell (`pd.isna`), `some s` for a cell whose string form is `s`.
Python string operations `str.strip`, `str.lower`, `str.upper`,
`str.replace` (single characters) are modelled character-wise on
`String.data`, and the `f"{n:06d}"` format is modelled by decimal digit
characters left-padded with `'0'` to width six.
-/

/-- A table cell: `none` is a null/NaN value, `some s` a value whose string form is `s`. -/
abbrev Value := Option String

/-- Python `str.strip()`: drop leading and trailing whitespace. -/
def pyStrip (s : String) : String :=
  ⟨((s.data.dropWhile Char.isWhitespace).reverse.dropWhile Char.isWhitespace).reverse⟩

/-- Python `str.lower()` (ASCII, as used on the field and category names here). -/
def pyLower (s : String) : String :=
  ⟨s.data.map Char.toLower⟩

/-- Python `str.upper()` (ASCII). -/
def pyUpper (s : String) : String :=
  ⟨s.data.map Char.toUpper⟩

/-- Python `str.replace(old, new)` for single-character `old`/`new`. -/
def pyReplaceChar (s : String) (old new : Char) : String :=
  ⟨s.data.map (fun c => if c = old then new else c)⟩

/-- Decimal digit characters of `n`, most significant first; fuel-indexed so that
it is structurally recursive (the fuel is always sufficient when `n < fuel`). -/
def decCharsAux : Nat → Nat → List Char
  | 0, _ => []
  | fuel + 1, n =>
    if n < 10 then [Nat.digitChar n]
    else decCharsAux fuel (n / 10) ++ [Nat.digitChar (n % 10)]

/-- Decimal digit characters of `n`, most significant first (`Python str(n)` for `n : Nat`). -/
def decChars (n : Nat) : List Char := decCharsAux (n + 1) n

/-- Python `str(n)` for a natural number. -/
def pyNatRepr (n : Nat) : String := ⟨decChars n⟩

/-- Python `f"{n:06d}"`: the decimal form of `n` left-padded with `'0'` to width 6. -/
def pad6 (n : Nat) : String :=
  ⟨List.replicate (6 - (decChars n).length) '0' ++ decChars n⟩

/-- Insert into a Python-dict-like association list: an existing key keeps its
position and gets the new value, a new key is appended at the end. -/
def dictInsert {α : Type} (d : List (String × α)) (k : String) (v : α) : List (String × α) :=
  if (d.map Prod.fst).contains k then
    d.map (fun p => if p.1 = k then (k, v) else p)
  else d ++ [(k, v)]

/-- Merge the entries of `extra` into `base` with Python dict-update semantics
(`{**base, **extra}` built left to right). -/
def dictMerge {α : Type} (base extra : List (String × α)) : List (String × α) :=
  extra.foldl (fun d p => dictInsert d p.1 p.2) base

/-- First-occurrence deduplication (pandas `Series.unique()` order), fuel-indexed
so that it is structurally recursive. -/
def firstDedupAux : Nat → List String → List String
  | 0, _ => []
  | _ + 1, [] => []
  | fuel + 1, x :: xs => x :: firstDedupAux fuel (xs.filter (fun y => decide (y ≠ x)))

/-- First-occurrence deduplication of a list of strings (pandas `unique()`). -/
def firstDedup (l : List String) : List String := firstDedupAux l.length l

/-- A scalar property value of a graph entity or relationship. Python floats
(`completion_rate`, `data_quality_score`) are modelled as exact rationals. -/
inductive PropValue : Type
  | str (s : String)
  | int (n : Int)
  | rat (q : ℚ)
  | null
deriving DecidableEq

/-- `kg_builder.SurveyEntity`. -/
structure SurveyEntity : Type where
  entity_id : String
  entity_type : String
  properties : List (String × PropValue)
  text_content : Option String
deriving DecidableEq

/-- `kg_builder.SurveyRelationship`. -/
structure SurveyRelationship : Type where
  source_id : String
  target_id : String
  relationship_type : String
  properties : List (String × PropValue)
deriving DecidableEq

/-- The ontology contract consumed by the extraction engine
(`RELATIONSHIP_MAPPINGS` is a dict relationship-type to field set; the field
set is modelled as a list in some iteration order). -/
structure Ontology : Type where
  RELATIONSHIP_MAPPINGS : List (String × List String)
  get_descriptive_field_name : String → String
  get_category_class_name : String → String
  get_category_for_field : String → String
  get_field_description : String → String
  get_all_survey_fields : List String

/-- The input table: named columns and rows of cells aligned with the columns
(a pandas `DataFrame` with the default range index). -/
structure Table : Type where
  columns : List String
  rows : List (List Value)

/-- `row.get(column)` / `row[column]` on one table row: `none` when the column
is missing or the cell is null. -/
def rowGet (columns : List String) (row : List Value) (c : String) : Value :=
  match (columns.zip row).lookup c with
  | some v => v
  | none => none

/-- `kg_builder.SurveyKGBuilder._safe_convert_value`: null-safe coercion of a
cell to a trimmed string, mapping `''` and case-insensitive
`'nan'`/`'none'`/`'null'` to `None`. -/
def safe_convert_value (v : Value) : Option String :=
  match v with
  | none => none
  | some s =>
    let str_value := pyStrip s
    if str_value = "" ∨ pyLower str_value = "nan" ∨ pyLower str_value = "none"
        ∨ pyLower str_value = "null" then none
    else some str_value

/-- `kg_builder.SurveyKGBuilder.generate_unique_respondent_id`: the produced ID
together with the updated counter. `ts` is the `strftime('%Y%m%d%H%M%S')`
timestamp captured at generation time. -/
def generate_unique_respondent_id (counter : Nat) (ts : String) : String × Nat :=
  (pad6 counter ++ ts, counter + 1)

/-- The respondent ID generated for the `i`-th processed row when the counter
started at `counter₀` (`f"{counter:06d}" + now().strftime('%Y%m%d%H%M%S')`);
`ts i` is the timestamp string captured at the `i`-th generation. -/
def generated_respondent_id (counter₀ : Nat) (ts : Nat → String) (i : Nat) : String :=
  pad6 (counter₀ + i) ++ ts i

/-- The `respondent_id_mapping` built by `extract_respondent_entities`: the
row-index to respondent-ID association, as the list of IDs in row order. -/
def respondent_id_mapping (counter₀ : Nat) (ts : Nat → String) (n : Nat) : List String :=
  (List.range n).map (generated_respondent_id counter₀ ts)

/-- The respondent entity built for one row
(`kg_builder.extract_respondent_entities`, loop body). `year` is
`datetime.now().year`. -/
def make_respondent_entity (columns : List String) (row : List Value)
    (respondent_id : String) (year : Nat) (index : Nat) : SurveyEntity :=
  let original_uid := (safe_convert_value (rowGet columns row "UID")).getD respondent_id
  let survey_project := (safe_convert_value (rowGet columns row "PROJECT_NAME")).getD "unknown"
  let created_at := (safe_convert_value (rowGet columns row "YEARRAW")).getD (pyNatRepr year)
  { entity_id := respondent_id
    entity_type := "Respondent"
    properties :=
      [("unique_id", PropValue.str respondent_id),
       ("original_uid", PropValue.str original_uid),
       ("survey_project", PropValue.str survey_project),
       ("created_at", PropValue.str created_at),
       ("row_index", PropValue.int index)]
    text_content := some ("Respondent " ++ respondent_id ++ " from survey " ++ survey_project) }

/-- `kg_builder.extract_respondent_entities`: one respondent entity per row, in
row order, generating IDs from the counter value `counter₀` at entry. -/
def extract_respondent_entities (columns : List String) (counter₀ : Nat)
    (ts : Nat → String) (year : Nat) : Nat → List (List Value) → List SurveyEntity
  | _, [] => []
  | i, row :: rest =>
    make_respondent_entity columns row (generated_respondent_id counter₀ ts i) year i
      :: extract_respondent_entities columns counter₀ ts year (i + 1) rest

/-- One step of the response-collection loop of `extract_response_entities`:
`if field in row.index: category_responses[descriptive_name] = value`. -/
def category_responses_step (ont : Ontology) (columns : List String) (row : List Value)
    (acc : List (String × Option String)) (field : String) : List (String × Option String) :=
  if columns.contains field then
    dictInsert acc (ont.get_descriptive_field_name field)
      (safe_convert_value (rowGet columns row field))
  else acc

/-- The per-category response collection of `extract_response_entities`
(`category_responses`): a dict keyed by descriptive field name, built over the
category's field set in iteration order, later fields overwriting earlier ones
with the same descriptive name. -/
def category_responses (ont : Ontology) (columns : List String) (row : List Value)
    (field_set : List String) : List (String × Option String) :=
  field_set.foldl (category_responses_step ont columns row) []

/-- The non-null entries of a collected response dict
(`{k: v for k, v in category_responses.items() if v is not None}`). -/
def non_null_responses (l : List (String × Option String)) : List (String × String) :=
  l.filterMap (fun p => p.2.map (fun v => (p.1, v)))

/-- `kg_builder.SurveyKGBuilder._create_category_text_content`: both branches of
its loop body emit `f"{field}: {value_str},"`, so the `FIELD_NAME_MAPPING`
probe does not affect the produced text. -/
def create_category_text_content (category_name : String)
    (responses : List (String × String)) (respondent_id : String) : String :=
  String.intercalate " "
    ((category_name ++ " responses for respondent " ++ respondent_id ++ ":")
      :: responses.map (fun p => p.1 ++ ": " ++ p.2 ++ ","))

/-- A collected response value as stored in the entity property dict
(`None` becomes a null property value). -/
def responseProp (v : Option String) : PropValue :=
  match v with
  | none => PropValue.null
  | some s => PropValue.str s

/-- The body of the per-category loop of `extract_response_entities`: for one
row (with its mapped respondent ID) and one relationship-type category, either
no entity and no relationship (all collected values null) or exactly the
response entity and the respondent-to-response relationship. `iso` is the
`datetime.now().isoformat()` string captured at relationship creation. -/
def response_for_category (ont : Ontology) (columns : List String) (row : List Value)
    (respondent_id : String) (relationship_type : String) (field_set : List String)
    (iso : String) : List SurveyEntity × List SurveyRelationship :=
  let cr := category_responses ont columns row field_set
  let nn := non_null_responses cr
  if nn.isEmpty then ([], [])
  else
    let response_entity_id := respondent_id ++ "_" ++ pyLower relationship_type
    let category_name := ont.get_category_class_name relationship_type
    let response_properties :=
      dictMerge
        [("respondent_uid", PropValue.str respondent_id),
         ("response_category", PropValue.str relationship_type),
         ("response_count", PropValue.int nn.length)]
        (cr.map (fun p => (p.1, responseProp p.2)))
    ([{ entity_id := response_entity_id
        entity_type := category_name
        properties := response_properties
        text_content := some (create_category_text_content category_name nn respondent_id) }],
     [{ source_id := respondent_id
        target_id := response_entity_id
        relationship_type := relationship_type
        properties :=
          [("respondent_uid", PropValue.str respondent_id),
           ("response_count", PropValue.int nn.length),
           ("created_at", PropValue.str iso)] }])

/-- The responses of one row: the per-category loop of
`extract_response_entities` over `RELATIONSHIP_MAPPINGS`, categories indexed by
`j` for the relationship-creation timestamps. -/
def row_responses (ont : Ontology) (columns : List String) (row : List Value)
    (respondent_id : String) (iso : Nat → String) :
    Nat → List (String × List String) → List SurveyEntity × List SurveyRelationship
  | _, [] => ([], [])
  | j, (relationship_type, field_set) :: rest =>
    let here := response_for_category ont columns row respondent_id relationship_type
      field_set (iso j)
    let there := row_responses ont columns row respondent_id iso (j + 1) rest
    (here.1 ++ there.1, here.2 ++ there.2)

/-- `kg_builder.extract_response_entities`: rows in order, a row without a
mapped respondent ID is skipped; `iso i j` is the relationship-creation
timestamp for row `i`, category `j`. -/
def extract_response_entities (ont : Ontology) (columns : List String)
    (rids : List String) (iso : Nat → Nat → String) :
    Nat → List (List Value) → List SurveyEntity × List SurveyRelationship
  | _, [] => ([], [])
  | i, row :: rest =>
    let there := extract_response_entities ont columns rids iso (i + 1) rest
    match rids.get? i with
    | none => there
    | some respondent_id =>
      let here := row_responses ont columns row respondent_id (iso i) 0
        ont.RELATIONSHIP_MAPPINGS
      (here.1 ++ there.1, here.2 ++ there.2)

/-- The values of one table column (`df[column]`). -/
def columnValues (t : Table) (c : String) : List Value :=
  t.rows.map (fun row => rowGet t.columns row c)

/-- The question entity for one recognized column
(`kg_builder.extract_question_entities`, loop body). `dtype c` is the pandas
dtype string of column `c`. -/
def make_question_entity (ont : Ontology) (t : Table) (dtype : String → String)
    (column : String) : SurveyEntity :=
  let descriptive_name := ont.get_descriptive_field_name column
  let vals := columnValues t column
  { entity_id := "question_" ++ descriptive_name
    entity_type := "Question"
    properties :=
      [("original_field_name", PropValue.str column),
       ("descriptive_field_name", PropValue.str descriptive_name),
       ("category", PropValue.str (ont.get_category_for_field column)),
       ("description", PropValue.str (ont.get_field_description column)),
       ("data_type", PropValue.str (dtype column)),
       ("unique_values", PropValue.int (vals.filterMap id).dedup.length),
       ("null_count", PropValue.int (vals.countP Option.isNone))]
    text_content := some ("Survey question " ++ descriptive_name ++ ": "
      ++ ont.get_field_description column ++ " in "
      ++ ont.get_category_for_field column ++ " category") }

/-- `kg_builder.extract_question_entities`: one question entity per distinct
column whose uppercased name the ontology recognizes, guarded by the
`processed_questions` set. -/
def extract_question_entities_from (ont : Ontology) (t : Table) (dtype : String → String) :
    List String → List String → List SurveyEntity
  | _, [] => []
  | processed, column :: rest =>
    if (ont.get_all_survey_fields).contains (pyUpper column) then
      if processed.contains column then
        extract_question_entities_from ont t dtype processed rest
      else
        make_question_entity ont t dtype column
          :: extract_question_entities_from ont t dtype (column :: processed) rest
    else
      extract_question_entities_from ont t dtype processed rest

/-- `kg_builder.extract_question_entities` over the whole column list. -/
def extract_question_entities (ont : Ontology) (t : Table) (dtype : String → String) :
    List SurveyEntity :=
  extract_question_entities_from ont t dtype [] t.columns

/-- The sanitized survey entity ID suffix
(`str(project_name).lower().replace(' ', '_').replace('-', '_')`). -/
def safe_project_name (p : String) : String :=
  pyReplaceChar (pyReplaceChar (pyLower p) ' ' '_') '-' '_'

/-- Python `round(q, 2)` on the exact rational value of the expression. -/
def round2 (q : ℚ) : ℚ := (round (q * 100) : ℤ) / 100

/-- `kg_builder.SurveyKGBuilder._calculate_data_quality_score` on a row subset:
percentage of non-null cells, 0 when the subset is empty. -/
def calculate_data_quality_score (columns : List String) (rows : List (List Value)) : ℚ :=
  let total_cells : ℚ := (rows.length * columns.length : ℕ)
  let non_null_cells : ℚ :=
    ((columns.map (fun c => (rows.map (fun row => rowGet columns row c)).countP Option.isSome)).sum : ℕ)
  if 0 < rows.length * columns.length then round2 ((non_null_cells / total_cells) * 100) else 0

/-- The row indices of one project's rows (`df[df['PROJECT_NAME'] == project_name]`),
paired with the rows themselves. -/
def projectRows (t : Table) (p : String) : List (Nat × List Value) :=
  t.rows.enum.filter (fun q => rowGet t.columns q.2 "PROJECT_NAME" = some p)

/-- The representative `survey_year` value of one project's rows
(`'unknown'` unless the first row has a non-null `YEARRAW`). -/
def surveyYearValue (t : Table) (rows : List (Nat × List Value)) : String :=
  match rows with
  | [] => "unknown"
  | (_, row) :: _ =>
    if t.columns.contains "YEARRAW" then
      match rowGet t.columns row "YEARRAW" with
      | some y => y
      | none => "unknown"
    else "unknown"

/-- The survey entity and its `HAS_RESPONDENT` relationships for one project
(`kg_builder.extract_survey_metadata`, loop body). -/
def survey_for_project (t : Table) (rids : List String) (p : String) :
    SurveyEntity × List SurveyRelationship :=
  let prows := projectRows t p
  let survey_id := "survey_" ++ safe_project_name p
  let entity : SurveyEntity :=
    { entity_id := survey_id
      entity_type := "Survey"
      properties :=
        [("project_name", PropValue.str p),
         ("total_respondents", PropValue.int prows.length),
         ("survey_year", PropValue.str (surveyYearValue t prows)),
         ("completion_rate", PropValue.rat (round2 (((prows.length : ℚ) / (t.rows.length : ℚ)) * 100))),
         ("data_quality_score", PropValue.rat (calculate_data_quality_score t.columns (prows.map Prod.snd)))]
      text_content := some ("Survey " ++ p ++ " with " ++ pyNatRepr prows.length
        ++ " respondents from " ++ surveyYearValue t prows) }
  let rels := prows.filterMap (fun q =>
    match rids.get? q.1 with
    | none => none
    | some respondent_id =>
      some { source_id := survey_id
             target_id := respondent_id
             relationship_type := "HAS_RESPONDENT"
             properties := [("survey_project", PropValue.str p)] })
  (entity, rels)

/-- `kg_builder.extract_survey_metadata`: one survey entity per distinct
non-null `PROJECT_NAME` value (first-occurrence order), each followed by its
`HAS_RESPONDENT` relationships. -/
def extract_survey_metadata (t : Table) (rids : List String) :
    List SurveyEntity × List SurveyRelationship :=
  if t.columns.contains "PROJECT_NAME" then
    let projects := firstDedup ((t.rows.map (fun row => rowGet t.columns row "PROJECT_NAME")).filterMap id)
    (projects.map (fun p => (survey_for_project t rids p).1),
     projects.flatMap (fun p => (survey_for_project t rids p).2))
  else ([], [])

/-- The result of one extraction run. -/
structure KGResult : Type where
  entities : List SurveyEntity
  relationships : List SurveyRelationship
deriving DecidableEq

/-- `kg_builder.SurveyKGBuilder.build_knowledge_graph`: the counter is reset to
1, then respondent, response, question and survey extraction run in order over
the already-loaded table. `ts i` is the timestamp captured at the `i`-th
respondent-ID generation, `iso i j` the one captured when creating the
relationship of row `i` and category `j`, `year` is `datetime.now().year`, and
`dtype c` the pandas dtype string of column `c`. -/
def build_knowledge_graph (ont : Ontology) (t : Table) (ts : Nat → String)
    (iso : Nat → Nat → String) (year : Nat) (dtype : String → String) : KGResult :=
  let rids := respondent_id_mapping 1 ts t.rows.length
  let respondents := extract_respondent_entities t.columns 1 ts year 0 t.rows
  let responses := extract_response_entities ont t.columns rids iso 0 t.rows
  let questions := extract_question_entities ont t dtype
  let surveys := extract_survey_metadata t rids
  { entities := respondents ++ responses.1 ++ questions ++ surveys.1
    relationships := responses.2 ++ surveys.2 }

/-- The result record of `validate_entity_relationships`. -/
structure ValidationResult : Type where
  total_relationships : Nat
  valid_relationships : Nat
  orphaned_relationships : List String
  validation_passed : Bool
deriving DecidableEq

/-- The loop body of `validate_entity_relationships`: accumulate an orphan
message or count the relationship as valid. -/
def validate_step (entity_ids : List String) (acc : List String × Nat)
    (rel : SurveyRelationship) : List String × Nat :=
  if ¬ entity_ids.contains rel.source_id then
    (acc.1 ++ ["Missing source: " ++ rel.source_id ++ " for relationship "
      ++ rel.relationship_type], acc.2)
  else if ¬ entity_ids.contains rel.target_id then
    (acc.1 ++ ["Missing target: " ++ rel.target_id ++ " for relationship "
      ++ rel.relationship_type], acc.2)
  else (acc.1, acc.2 + 1)

/-- `kg_builder.SurveyKGBuilder.validate_entity_relationships`. -/
def validate_entity_relationships (entities : List SurveyEntity)
    (relationships : List SurveyRelationship) : ValidationResult :=
  let entity_ids := entities.map (fun e => e.entity_id)
  let folded := relationships.foldl (validate_step entity_ids) ([], 0)
  { total_relationships := relationships.length
    valid_relationships := folded.2
    orphaned_relationships := folded.1
    validation_passed := folded.1.length == 0 }

/-- The builder's mutable graph state (`self.entities`, `self.relationships`). -/
structure KGState : Type where
  entities : List SurveyEntity
  relationships : List SurveyRelationship
deriving DecidableEq

/-- `validate_entity_relationships` as a method on the builder state: it reads
`self.entities` and `self.relationships` and assigns neither, so the state
after the call is returned unchanged. -/
def validate_entity_relationships_method (st : KGState) : ValidationResult × KGState :=
  (validate_entity_relationships st.entities st.relationships, st)

/-- The batch slices `xs[i:i+batch_size]` produced by
`for i in range(0, len(xs), batch_size)`, for `batch_size ≥ 1`. -/
def chunks {α : Type} (batch_size : Nat) : List α → List (List α)
  | [] => []
  | x :: xs => (x :: xs.take (batch_size - 1)) :: chunks batch_size (xs.drop (batch_size - 1))
termination_by l => l.length
decreasing_by
  simp only [List.length_drop, List.length_cons]
  omega

/-- `neo4j_graph_builder.create_entities_batch`: the successive entity batches
submitted to the store. -/
def create_entities_batches (entities : List SurveyEntity) (batch_size : Nat) :
    List (List SurveyEntity) :=
  chunks batch_size entities

/-- `neo4j_graph_builder.create_relationships_batch`: the successive
relationship batches submitted to the store. -/
def create_relationships_batches (relationships : List SurveyRelationship) (batch_size : Nat) :
    List (List SurveyRelationship) :=
  chunks batch_size relationships

/-- The graph store contents: nodes and relationships (as opaque tokens). -/
structure GraphStore : Type where
  nodes : List String
  rels : List String
deriving DecidableEq

/-- A delete operation issued by `clear_database`, with the number of records
it deleted. -/
inductive ClearOp : Type
  | delete_relationships (count : Nat)
  | delete_nodes (count : Nat)
deriving DecidableEq

/-- The relationship-deletion loop of `clear_database`: each pass deletes up to
10000 relationships and the loop exits when a pass deletes none. Returns the
remaining relationships and the issued delete operations. -/
def delete_all_rels (rels : List String) : List String × List ClearOp :=
  if rels.length = 0 then (rels, [])
  else
    let deleted := min 10000 rels.length
    let rest := delete_all_rels (rels.drop 10000)
    (rest.1, ClearOp.delete_relationships deleted :: rest.2)
termination_by rels.length
decreasing_by
  simp only [List.length_drop]
  omega

/-- The node-deletion loop of `clear_database`. -/
def delete_all_nodes (nodes : List String) : List String × List ClearOp :=
  if nodes.length = 0 then (nodes, [])
  else
    let deleted := min 10000 nodes.length
    let rest := delete_all_nodes (nodes.drop 10000)
    (rest.1, ClearOp.delete_nodes deleted :: rest.2)
termination_by nodes.length
decreasing_by
  simp only [List.length_drop]
  omega

/-- `neo4j_graph_builder.clear_database`: without confirmation it only logs a
warning; with confirmation it deletes all relationships in batches of 10000
until none remain, then all nodes likewise. Returns the resulting store and
the issued delete operations. -/
def clear_database (confirm : Bool) (s : GraphStore) : GraphStore × List ClearOp :=
  if ¬ confirm then (s, [])
  else
    let r := delete_all_rels s.rels
    let n := delete_all_nodes s.nodes
    ({ nodes := n.1, rels := r.1 }, r.2 ++ n.2)

/-- The spec's description of an absent-equivalent input to the extraction
accessor: null, empty string, whitespace-only, or a value whose string form is
case-insensitively `nan`/`none`/`null` after trimming. -/
def spec_absent (v : Value) : Prop :=
  v = none ∨ ∃ s, v = some s ∧ (s = "" ∨ (∀ c ∈ s.data, c.isWhitespace = true)
    ∨ pyLower (pyStrip s) ∈ (["nan", "none", "null"] : List String))

/-- The number of records deleted by one `clear_database` delete operation. -/
def ClearOp.count : ClearOp → Nat
  | ClearOp.delete_relationships c => c
  | ClearOp.delete_nodes c => c

/-- A trivial ontology instance (no category mappings, identity naming) used in
concrete counterexamples. -/
def ontTrivial : Ontology :=
  { RELATIONSHIP_MAPPINGS := []
    get_descriptive_field_name := fun s => s
    get_category_class_name := fun s => s
    get_category_for_field := fun s => s
    get_field_description := fun s => s
    get_all_survey_fields := [] }

/-- An ontology instance whose two fields of category `REL` share one
descriptive field name, used in a concrete counterexample. -/
def ontDupDesc : Ontology :=
  { RELATIONSHIP_MAPPINGS := [("REL", ["F1", "F2"])]
    get_descriptive_field_name := fun _ => "d"
    get_category_class_name := fun s => s
    get_category_for_field := fun s => s
    get_field_description := fun s => s
    get_all_survey_fields := [] }

/-- A constant generation-timestamp source: every ID generation observes the
same wall-clock second. -/
def tsConst : Nat → String := fun _ => "20250101120000"

/-- A two-row table whose `PROJECT_NAME` values differ only in letter case. -/
def tCaseProjects : Table := { columns := ["PROJECT_NAME"], rows := [[some "A"], [some "a"]] }

/-- A one-row, one-column table with a null cell. -/
def tOneRow : Table := { columns := ["A"], rows := [[none]] }

/-- A constant pandas-dtype assignment for concrete instances. -/
def dtypeConst : String → String := fun _ => "object"

/-- A constant relationship-creation timestamp source for concrete instances. -/
def isoConst : Nat → Nat → String := fun _ _ => "2025-01-01T12:00:00"

/-! ### String and decimal-digit infrastructure -/

theorem string_data_append (a b : String) : (a ++ b).data = a.data ++ b.data := rfl

theorem string_mk_inj {a b : List Char} (h : String.mk a = String.mk b) : a = b := by
  injection h

theorem decCharsAux_fuel : ∀ (n f₁ f₂ : Nat), n < f₁ → n < f₂ →
    decCharsAux f₁ n = decCharsAux f₂ n := by
  intro n
  induction n using Nat.strong_induction_on with
  | _ n ih =>
    intro f₁ f₂ h₁ h₂
    match f₁, f₂ with
    | g₁ + 1, g₂ + 1 =>
      by_cases h10 : n < 10
      · simp [decCharsAux, h10]
      · have hdiv : n / 10 < n := Nat.div_lt_self (by omega) (by omega)
        simp only [decCharsAux, if_neg h10]
        rw [ih (n / 10) hdiv g₁ g₂ (by omega) (by omega)]

theorem decChars_step {n : Nat} (h : 10 ≤ n) :
    decChars n = decChars (n / 10) ++ [Nat.digitChar (n % 10)] := by
  have hdiv : n / 10 < n := Nat.div_lt_self (by omega) (by omega)
  show decCharsAux (n + 1) n = _
  simp only [decCharsAux, if_neg (by omega : ¬ n < 10)]
  rw [decCharsAux_fuel (n / 10) n (n / 10 + 1) (by omega) (by omega)]
  rfl

theorem decChars_of_lt {n : Nat} (h : n < 10) : decChars n = [Nat.digitChar n] := by
  show decCharsAux (n + 1) n = _
  simp [decCharsAux, h]

theorem decChars_eq_digits : ∀ (n : Nat), 0 < n →
    decChars n = ((Nat.digits 10 n).map Nat.digitChar).reverse := by
  intro n
  induction n using Nat.strong_induction_on with
  | _ n ih =>
    intro hn
    by_cases h10 : n < 10
    · rw [decChars_of_lt h10, Nat.digits_of_lt 10 n (by omega) h10]
      rfl
    · have hdiv : n / 10 < n := Nat.div_lt_self (by omega) (by omega)
      have hdivpos : 0 < n / 10 := Nat.div_pos (by omega) (by omega)
      rw [decChars_step (by omega), ih (n / 10) hdiv hdivpos,
        Nat.digits_def' (by norm_num : (1:ℕ) < 10) hn]
      simp

theorem digitChar_inj_lt : ∀ a : Nat, a < 10 → ∀ b : Nat, b < 10 →
    Nat.digitChar a = Nat.digitChar b → a = b := by decide

theorem digitChar_ne_zero_char : ∀ a : Nat, a < 10 → (a ≠ 0 → Nat.digitChar a ≠ '0') := by decide

theorem digitChar_isDigit : ∀ a : Nat, a < 10 → (Nat.digitChar a).isDigit = true := by decide

theorem map_digitChar_inj : ∀ (l₁ l₂ : List Nat), (∀ d ∈ l₁, d < 10) → (∀ d ∈ l₂, d < 10) →
    l₁.map Nat.digitChar = l₂.map Nat.digitChar → l₁ = l₂ := by
  intro l₁
  induction l₁ with
  | nil => intro l₂ _ _ h; cases l₂ <;> simp_all
  | cons a t ih =>
    intro l₂ h₁ h₂ h
    cases l₂ with
    | nil => simp_all
    | cons b t₂ =>
      simp only [List.map_cons, List.cons.injEq] at h
      have ha : a = b := digitChar_inj_lt a (h₁ a (by simp)) b (h₂ b (by simp)) h.1
      have ht : t = t₂ := ih t₂ (fun d hd => h₁ d (by simp [hd])) (fun d hd => h₂ d (by simp [hd])) h.2
      rw [ha, ht]

theorem decChars_head : ∀ (n : Nat), 0 < n →
    ∃ c cs, decChars n = c :: cs ∧ c ≠ '0' ∧ c.isDigit = true := by
  intro n hn
  have hne : Nat.digits 10 n ≠ [] := Nat.digits_ne_nil_iff_ne_zero.mpr (by omega)
  obtain ⟨l, a, hla⟩ := List.eq_nil_or_concat (Nat.digits 10 n) |>.resolve_left hne
  have ha0 : a ≠ 0 := by
    have h1 := Nat.getLast_digit_ne_zero 10 (show n ≠ 0 by omega)
    have h2 : (Nat.digits 10 n).getLast? = some a := by
      rw [hla, List.concat_eq_append]
      exact List.getLast?_concat l
    have h3 := List.getLast?_eq_getLast (Nat.digits 10 n) hne
    rw [h2] at h3
    injection h3 with h4
    rw [← h4] at h1
    exact h1
  have ha10 : a < 10 := Nat.digits_lt_base (by norm_num) (by rw [hla]; simp)
  refine ⟨Nat.digitChar a, (l.map Nat.digitChar).reverse, ?_, ?_, ?_⟩
  · rw [decChars_eq_digits n hn, hla]
    simp
  · exact digitChar_ne_zero_char a ha10 ha0
  · exact digitChar_isDigit a ha10

theorem decChars_zero_eq : decChars 0 = ['0'] := by decide

theorem decChars_inj : ∀ (a b : Nat), decChars a = decChars b → a = b := by
  intro a b h
  rcases Nat.eq_zero_or_pos a with ha | ha
  · rcases Nat.eq_zero_or_pos b with hb | hb
    · omega
    · obtain ⟨c, cs, hc, hc0, _⟩ := decChars_head b hb
      rw [ha, decChars_zero_eq, hc] at h
      exact absurd (List.head_eq_of_cons_eq h).symm hc0
  · rcases Nat.eq_zero_or_pos b with hb | hb
    · obtain ⟨c, cs, hc, hc0, _⟩ := decChars_head a ha
      rw [hb, decChars_zero_eq, hc] at h
      exact absurd (List.head_eq_of_cons_eq h) hc0
    · rw [decChars_eq_digits a ha, decChars_eq_digits b hb] at h
      have h' := List.reverse_injective h
      have hd := map_digitChar_inj (Nat.digits 10 a) (Nat.digits 10 b)
        (fun d hd => Nat.digits_lt_base (by norm_num) hd)
        (fun d hd => Nat.digits_lt_base (by norm_num) hd) h'
      have h2 := congrArg (Nat.ofDigits 10) hd
      rwa [Nat.ofDigits_digits, Nat.ofDigits_digits] at h2

theorem dropWhile_replicate_zero (k : Nat) (l : List Char) :
    List.dropWhile (fun c => c == '0') (List.replicate k '0' ++ l)
      = List.dropWhile (fun c => c == '0') l := by
  induction k with
  | zero => simp
  | succ k ih =>
    rw [List.replicate_succ, List.cons_append, List.dropWhile_cons_of_pos (by decide)]
    exact ih

theorem dropWhile_decChars (n : Nat) (hn : 0 < n) :
    List.dropWhile (fun c => c == '0') (decChars n) = decChars n := by
  obtain ⟨c, cs, hc, hc0, _⟩ := decChars_head n hn
  rw [hc, List.dropWhile_cons_of_neg]
  simp [hc0]

theorem dropWhile_decChars_zero :
    List.dropWhile (fun c => c == '0') (decChars 0) = [] := by decide

theorem pad6_inj : ∀ (a b : Nat), pad6 a = pad6 b → a = b := by
  intro a b h
  have hdata := string_mk_inj h
  have hdw := congrArg (List.dropWhile (fun c => c == '0')) hdata
  rw [dropWhile_replicate_zero, dropWhile_replicate_zero] at hdw
  rcases Nat.eq_zero_or_pos a with ha | ha
  · rcases Nat.eq_zero_or_pos b with hb | hb
    · omega
    · rw [ha, dropWhile_decChars_zero, dropWhile_decChars b hb] at hdw
      obtain ⟨c, cs, hc, hc0, _⟩ := decChars_head b hb
      rw [hc] at hdw
      exact absurd hdw.symm (List.cons_ne_nil c cs)
  · rcases Nat.eq_zero_or_pos b with hb | hb
    · rw [hb, dropWhile_decChars_zero, dropWhile_decChars a ha] at hdw
      obtain ⟨c, cs, hc, hc0, _⟩ := decChars_head a ha
      rw [hc] at hdw
      exact absurd hdw (List.cons_ne_nil c cs)
    · rw [dropWhile_decChars a ha, dropWhile_decChars b hb] at hdw
      exact decChars_inj a b hdw

theorem decChars_length_le : ∀ (k n : Nat), 0 < k → n < 10 ^ k → (decChars n).length ≤ k := by
  intro k
  induction k with
  | zero => omega
  | succ k ih =>
    intro n _ hlt
    by_cases h10 : n < 10
    · rw [decChars_of_lt h10]; simp
    · have hk : 0 < k := by
        rcases Nat.eq_zero_or_pos k with rfl | h0
        · norm_num at hlt; omega
        · exact h0
      have hdivlt : n / 10 < 10 ^ k := by
        rw [Nat.div_lt_iff_lt_mul (by omega : 0 < 10)]
        calc n < 10 ^ (k + 1) := hlt
        _ = 10 ^ k * 10 := by ring
      rw [decChars_step (by omega)]
      simp only [List.length_append, List.length_cons, List.length_nil]
      have := ih (n / 10) hk hdivlt
      omega

theorem pad6_data_length {n : Nat} (h : n < 1000000) : (pad6 n).data.length = 6 := by
  have hle : (decChars n).length ≤ 6 := decChars_length_le 6 n (by omega) (by norm_num; omega)
  show (List.replicate (6 - (decChars n).length) '0' ++ decChars n).length = 6
  simp only [List.length_append, List.length_replicate]
  omega

theorem pad6_head_digit (n : Nat) :
    ∃ c cs, (pad6 n).data = c :: cs ∧ c.isDigit = true := by
  show ∃ c cs, List.replicate (6 - (decChars n).length) '0' ++ decChars n = c :: cs ∧ _
  rcases Nat.eq_zero_or_pos (6 - (decChars n).length) with hz | hz
  · rcases Nat.eq_zero_or_pos n with hn | hn
    · rw [hn] at hz
      simp [decChars, decCharsAux] at hz
    · obtain ⟨c, cs, hc, _, hdig⟩ := decChars_head n hn
      exact ⟨c, cs, by rw [hz, hc]; simp, hdig⟩
  · obtain ⟨m, hm⟩ := Nat.exists_eq_succ_of_ne_zero (by omega : 6 - (decChars n).length ≠ 0)
    exact ⟨'0', List.replicate m '0' ++ decChars n, by rw [hm]; simp [List.replicate_succ], by decide⟩

theorem string_data_length (s : String) : s.data.length = s.length := rfl

theorem string_ne_of_data_length_ne {a b : String}
    (h : a.data.length ≠ b.data.length) : a ≠ b := by
  intro hab
  exact h (by rw [hab])

theorem generated_respondent_id_inj (counter₀ : Nat) (ts : Nat → String)
    (h14 : ∀ i, (ts i).length = 14) :
    ∀ i j, generated_respondent_id counter₀ ts i = generated_respondent_id counter₀ ts j → i = j := by
  intro i j h
  have hd : (pad6 (counter₀ + i)).data ++ (ts i).data
      = (pad6 (counter₀ + j)).data ++ (ts j).data := by
    have h2 := congrArg String.data h
    simp only [generated_respondent_id, string_data_append] at h2
    exact h2
  have hlen : (ts i).data.length = (ts j).data.length := by
    rw [string_data_length, string_data_length, h14 i, h14 j]
  obtain ⟨hpad, _⟩ := List.append_inj' hd hlen
  have := pad6_inj (counter₀ + i) (counter₀ + j) (by
    show pad6 (counter₀ + i) = pad6 (counter₀ + j)
    exact congrArg String.mk hpad)
  omega

theorem respondent_id_mapping_nodup (counter₀ : Nat) (ts : Nat → String) (n : Nat)
    (h14 : ∀ i, (ts i).length = 14) :
    (respondent_id_mapping counter₀ ts n).Nodup := by
  refine List.Nodup.map_on ?_ (List.nodup_range n)
  intro i _ j _ h
  exact generated_respondent_id_inj counter₀ ts h14 i j h

/-! ### C3: the null-safe value accessor -/

theorem all_whitespace_of_dropWhile {l : List Char}
    (h : ∀ c ∈ l.dropWhile Char.isWhitespace, c.isWhitespace = true) :
    ∀ c ∈ l, c.isWhitespace = true := by
  intro c hc
  rw [← List.takeWhile_append_dropWhile Char.isWhitespace l] at hc
  rcases List.mem_append.mp hc with h1 | h1
  · exact List.mem_takeWhile_imp h1
  · exact h c h1

theorem pyStrip_eq_empty_iff (s : String) :
    pyStrip s = "" ↔ ∀ c ∈ s.data, c.isWhitespace = true := by
  constructor
  · intro h
    have hdata := string_mk_inj h
    rw [List.reverse_eq_nil_iff, List.dropWhile_eq_nil_iff] at hdata
    apply all_whitespace_of_dropWhile
    intro c hc
    exact hdata c (by simp [hc])
  · intro h
    have h1 : s.data.dropWhile Char.isWhitespace = [] :=
      List.dropWhile_eq_nil_iff.mpr (fun x hx => h x hx)
    show String.mk _ = String.mk []
    rw [h1]
    simp

/-- C3: the extraction value accessor `_safe_convert_value` maps every
absent-equivalent input (null, empty, whitespace-only, or trimming
case-insensitively to `nan`/`none`/`null`) to `None` — hence to the same
result as a null input — and maps every other input to its trimmed string
form. -/
theorem C3_safe_convert_value_spec (v : Value) :
    (safe_convert_value v = none ↔ spec_absent v)
    ∧ (spec_absent v → safe_convert_value v = safe_convert_value none)
    ∧ (∀ s, v = some s → ¬ spec_absent v → safe_convert_value v = some (pyStrip s)) := by
  have hmain : safe_convert_value v = none ↔ spec_absent v := by
    cases v with
    | none => simp [safe_convert_value, spec_absent]
    | some s =>
      simp only [safe_convert_value, spec_absent]
      constructor
      · intro h
        by_cases hc : pyStrip s = "" ∨ pyLower (pyStrip s) = "nan"
            ∨ pyLower (pyStrip s) = "none" ∨ pyLower (pyStrip s) = "null"
        · rcases hc with h1 | h1 | h1 | h1
          · exact Or.inr ⟨s, rfl, Or.inr (Or.inl ((pyStrip_eq_empty_iff s).mp h1))⟩
          · exact Or.inr ⟨s, rfl, Or.inr (Or.inr (by simp [h1]))⟩
          · exact Or.inr ⟨s, rfl, Or.inr (Or.inr (by simp [h1]))⟩
          · exact Or.inr ⟨s, rfl, Or.inr (Or.inr (by simp [h1]))⟩
        · rw [if_neg hc] at h
          exact absurd h (by simp)
      · intro h
        rcases h with h | ⟨s', hs', h⟩
        · exact absurd h (by simp)
        · have hss : s = s' := by injection hs'
          subst hss
          rcases h with h | h | h
          · subst h
            rw [if_pos]
            left
            rfl
          · rw [if_pos]
            left
            exact (pyStrip_eq_empty_iff s).mpr h
          · simp only [List.mem_cons, List.mem_singleton] at h
            rw [if_pos]
            rcases h with h | h | h
            · right; left; exact h
            · right; right; left; exact h
            · right; right; right; simp at h; exact h
  refine ⟨hmain, ?_, ?_⟩
  · intro h
    rw [hmain.mpr h]
    rfl
  · intro s hs habs
    subst hs
    simp only [safe_convert_value]
    rw [if_neg]
    intro hc
    apply habs
    apply hmain.mp
    simp only [safe_convert_value, if_pos hc]

/-- Witness for C3 at concrete inputs: `" NaN "` is treated as a null input,
`" x "` is coerced to its trimmed form. -/
theorem C3_witness :
    safe_convert_value (some " NaN ") = safe_convert_value none
    ∧ safe_convert_value (some " x ") = some (pyStrip " x ") := by
  constructor
  · exact (C3_safe_convert_value_spec (some " NaN ")).2.1
      (Or.inr ⟨" NaN ", rfl, Or.inr (Or.inr (by decide))⟩)
  · refine (C3_safe_convert_value_spec (some " x ")).2.2 " x " rfl ?_
    intro h
    rcases h with h | ⟨s, hs, h⟩
    · exact absurd h (by decide)
    · have hss : " x " = s := by injection hs
      subst hss
      rcases h with h | h | h
      · exact absurd h (by decide)
      · exact absurd (h 'x' (by decide)) (by decide)
      · exact absurd h (by decide)

/-! ### C5: the relationship integrity validator -/

theorem contains_iff_mem {l : List String} {a : String} : l.contains a = true ↔ a ∈ l :=
  List.elem_iff

theorem validate_step_src (ids : List String) (acc : List String × Nat)
    (rel : SurveyRelationship) (h1 : ids.contains rel.source_id = false) :
    validate_step ids acc rel
      = (acc.1 ++ ["Missing source: " ++ rel.source_id ++ " for relationship "
          ++ rel.relationship_type], acc.2) := by
  have h1' : rel.source_id ∉ ids := fun hmem =>
    Bool.false_ne_true (h1.symm.trans (contains_iff_mem.mpr hmem))
  simp [validate_step, h1']

theorem validate_step_tgt (ids : List String) (acc : List String × Nat)
    (rel : SurveyRelationship) (h1 : ids.contains rel.source_id = true)
    (h2 : ids.contains rel.target_id = false) :
    validate_step ids acc rel
      = (acc.1 ++ ["Missing target: " ++ rel.target_id ++ " for relationship "
          ++ rel.relationship_type], acc.2) := by
  have h1' : rel.source_id ∈ ids := contains_iff_mem.mp h1
  have h2' : rel.target_id ∉ ids := fun hmem =>
    Bool.false_ne_true (h2.symm.trans (contains_iff_mem.mpr hmem))
  simp [validate_step, h1', h2']

theorem validate_step_ok (ids : List String) (acc : List String × Nat)
    (rel : SurveyRelationship) (h1 : ids.contains rel.source_id = true)
    (h2 : ids.contains rel.target_id = true) :
    validate_step ids acc rel = (acc.1, acc.2 + 1) := by
  have h1' : rel.source_id ∈ ids := contains_iff_mem.mp h1
  have h2' : rel.target_id ∈ ids := contains_iff_mem.mp h2
  simp [validate_step, h1', h2']

theorem validate_fold_count (ids : List String) :
    ∀ (rels : List SurveyRelationship) (acc : List String × Nat),
      (rels.foldl (validate_step ids) acc).1.length + (rels.foldl (validate_step ids) acc).2
        = acc.1.length + acc.2 + rels.length := by
  intro rels
  induction rels with
  | nil => intro acc; simp
  | cons r rs ih =>
    intro acc
    rw [List.foldl_cons]
    cases h1 : ids.contains r.source_id with
    | false =>
      rw [validate_step_src ids acc r h1, ih]
      simp only [List.length_append, List.length_cons, List.length_nil]
      omega
    | true =>
      cases h2 : ids.contains r.target_id with
      | false =>
        rw [validate_step_tgt ids acc r h1 h2, ih]
        simp only [List.length_append, List.length_cons, List.length_nil]
        omega
      | true =>
        rw [validate_step_ok ids acc r h1 h2, ih]
        simp only [List.length_cons]
        omega

theorem validate_fold_empty (ids : List String) :
    ∀ (rels : List SurveyRelationship) (acc : List String × Nat),
      ((rels.foldl (validate_step ids) acc).1 = []
        ↔ (acc.1 = [] ∧ ∀ rel ∈ rels,
            ids.contains rel.source_id = true ∧ ids.contains rel.target_id = true)) := by
  intro rels
  induction rels with
  | nil => intro acc; simp
  | cons r rs ih =>
    intro acc
    rw [List.foldl_cons]
    cases h1 : ids.contains r.source_id with
    | false =>
      rw [validate_step_src ids acc r h1, ih]
      simp only [List.append_eq_nil, List.cons_ne_nil, and_false, false_and, List.mem_cons]
      constructor
      · intro h
        exact absurd h (by simp)
      · intro ⟨_, hall⟩
        have := (hall r (Or.inl rfl)).1
        rw [h1] at this
        exact absurd this (by simp)
    | true =>
      cases h2 : ids.contains r.target_id with
      | false =>
        rw [validate_step_tgt ids acc r h1 h2, ih]
        constructor
        · intro h
          exact absurd h.1 (by simp)
        · intro ⟨_, hall⟩
          have := (hall r (by simp)).2
          rw [h2] at this
          exact absurd this (by simp)
      | true =>
        rw [validate_step_ok ids acc r h1 h2, ih]
        constructor
        · intro ⟨ha, hall⟩
          exact ⟨ha, fun rel hrel => by
            rcases List.mem_cons.mp hrel with hr | hr
            · subst hr; exact ⟨h1, h2⟩
            · exact hall rel hr⟩
        · intro ⟨ha, hall⟩
          exact ⟨ha, fun rel hrel => hall rel (List.mem_cons.mpr (Or.inr hrel))⟩

/-- C5: the validator reports `total_relationships` equal to the number of
input relationships, valid plus orphaned counts equal to the total,
`validation_passed` exactly when every relationship's endpoints occur among
the entity IDs, and — being a pure read of the builder state — leaves the
entity and relationship lists unchanged. -/
theorem C5_validate_entity_relationships (entities : List SurveyEntity)
    (relationships : List SurveyRelationship) :
    (validate_entity_relationships entities relationships).total_relationships
        = relationships.length
    ∧ (validate_entity_relationships entities relationships).valid_relationships
        + (validate_entity_relationships entities relationships).orphaned_relationships.length
        = relationships.length
    ∧ ((validate_entity_relationships entities relationships).validation_passed = true
        ↔ ∀ rel ∈ relationships,
            rel.source_id ∈ entities.map (fun e => e.entity_id)
            ∧ rel.target_id ∈ entities.map (fun e => e.entity_id))
    ∧ validate_entity_relationships_method ⟨entities, relationships⟩
        = (validate_entity_relationships entities relationships, ⟨entities, relationships⟩) := by
  refine ⟨rfl, ?_, ?_, rfl⟩
  · have h := validate_fold_count (entities.map (fun e => e.entity_id)) relationships ([], 0)
    simp only [validate_entity_relationships, List.length_nil] at h ⊢
    omega
  · have h := validate_fold_empty (entities.map (fun e => e.entity_id)) relationships ([], 0)
    simp only [validate_entity_relationships]
    rw [show ((relationships.foldl (validate_step (entities.map (fun e => e.entity_id)))
      ([], 0)).1.length == 0) = true
        ↔ (relationships.foldl (validate_step (entities.map (fun e => e.entity_id)))
      ([], 0)).1 = [] by
      rw [beq_iff_eq, List.length_eq_zero]]
    rw [h]
    simp only [true_and]
    constructor
    · intro hall rel hrel
      have h0 := hall rel hrel
      exact ⟨contains_iff_mem.mp h0.1, contains_iff_mem.mp h0.2⟩
    · intro hall rel hrel
      have h0 := hall rel hrel
      exact ⟨contains_iff_mem.mpr h0.1, contains_iff_mem.mpr h0.2⟩

/-! ### C7: batch-size invariance of the loading loops -/

theorem chunks_join_aux {α : Type} (batch_size : Nat) :
    ∀ (n : Nat) (l : List α), l.length ≤ n → (chunks batch_size l).flatten = l := by
  intro n
  induction n with
  | zero =>
    intro l h
    have : l = [] := List.eq_nil_of_length_eq_zero (by omega)
    subst this
    simp [chunks]
  | succ n ih =>
    intro l h
    match l with
    | [] => simp [chunks]
    | x :: xs =>
      rw [chunks]
      simp only [List.flatten_cons]
      rw [ih (xs.drop (batch_size - 1)) (by simp only [List.length_drop]; simp at h; omega)]
      rw [List.cons_append, List.take_append_drop]

theorem chunks_join {α : Type} (batch_size : Nat) (l : List α) :
    (chunks batch_size l).flatten = l :=
  chunks_join_aux batch_size l.length l (Nat.le_refl _)

/-- C7: for any batch size of at least 1, the batched loading loops submit
every entity and every relationship exactly once — the concatenation of the
submitted batches is the input list — so the number of submitted records is
independent of the batch size. -/
theorem C7_batch_size_invariance (entities : List SurveyEntity)
    (relationships : List SurveyRelationship) (bs₁ bs₂ : Nat)
    (_h₁ : 1 ≤ bs₁) (_h₂ : 1 ≤ bs₂) :
    (create_entities_batches entities bs₁).flatten = entities
    ∧ (create_relationships_batches relationships bs₂).flatten = relationships
    ∧ ((create_entities_batches entities bs₁).map List.length).sum = entities.length
    ∧ ((create_relationships_batches relationships bs₂).map List.length).sum
        = relationships.length := by
  refine ⟨chunks_join bs₁ entities, chunks_join bs₂ relationships, ?_, ?_⟩
  · rw [← List.length_flatten]
    rw [show (create_entities_batches entities bs₁).flatten = entities from chunks_join bs₁ entities]
  · rw [← List.length_flatten]
    rw [show (create_relationships_batches relationships bs₂).flatten = relationships from
      chunks_join bs₂ relationships]

/-- Witness for C7 at batch sizes 1 and 2 on concrete three-element lists. -/
theorem C7_witness :
    (create_entities_batches
        [⟨"a", "T", [], none⟩, ⟨"b", "T", [], none⟩, ⟨"c", "T", [], none⟩] 2).flatten
      = [⟨"a", "T", [], none⟩, ⟨"b", "T", [], none⟩, ⟨"c", "T", [], none⟩]
    ∧ (create_relationships_batches [⟨"a", "b", "R", []⟩] 1).flatten = [⟨"a", "b", "R", []⟩]
    ∧ ((create_entities_batches
        [⟨"a", "T", [], none⟩, ⟨"b", "T", [], none⟩, ⟨"c", "T", [], none⟩] 2).map
          List.length).sum = 3
    ∧ ((create_relationships_batches [⟨"a", "b", "R", []⟩] 1).map List.length).sum = 1 := by
  have h := C7_batch_size_invariance
    [⟨"a", "T", [], none⟩, ⟨"b", "T", [], none⟩, ⟨"c", "T", [], none⟩]
    [⟨"a", "b", "R", []⟩] 2 1 (by decide) (by decide)
  exact ⟨h.1, h.2.1, by rw [h.2.2.1]; rfl, by rw [h.2.2.2]; rfl⟩

/-! ### C9: the confirmation-gated full-rebuild reset -/

theorem delete_all_rels_spec :
    ∀ (n : Nat) (rels : List String), rels.length ≤ n →
      (delete_all_rels rels).1 = []
      ∧ (∀ op ∈ (delete_all_rels rels).2,
          ∃ c, op = ClearOp.delete_relationships c ∧ 1 ≤ c ∧ c ≤ 10000)
      ∧ ((delete_all_rels rels).2.map ClearOp.count).sum = rels.length := by
  intro n
  induction n with
  | zero =>
    intro rels h
    have : rels = [] := List.eq_nil_of_length_eq_zero (by omega)
    subst this
    rw [delete_all_rels]
    simp
  | succ n ih =>
    intro rels h
    by_cases hz : rels.length = 0
    · have : rels = [] := List.eq_nil_of_length_eq_zero hz
      subst this
      rw [delete_all_rels]
      simp
    · rw [delete_all_rels, if_neg hz]
      have hdrop : (rels.drop 10000).length ≤ n := by
        simp only [List.length_drop]
        omega
      obtain ⟨he, hops, hsum⟩ := ih (rels.drop 10000) hdrop
      refine ⟨he, ?_, ?_⟩
      · intro op hop
        rcases List.mem_cons.mp hop with hop | hop
        · exact ⟨min 10000 rels.length, hop, by omega, by omega⟩
        · exact hops op hop
      · simp only [List.map_cons, List.sum_cons, hsum, List.length_drop, ClearOp.count]
        omega

theorem delete_all_nodes_spec :
    ∀ (n : Nat) (nodes : List String), nodes.length ≤ n →
      (delete_all_nodes nodes).1 = []
      ∧ (∀ op ∈ (delete_all_nodes nodes).2,
          ∃ c, op = ClearOp.delete_nodes c ∧ 1 ≤ c ∧ c ≤ 10000)
      ∧ ((delete_all_nodes nodes).2.map ClearOp.count).sum = nodes.length := by
  intro n
  induction n with
  | zero =>
    intro nodes h
    have : nodes = [] := List.eq_nil_of_length_eq_zero (by omega)
    subst this
    rw [delete_all_nodes]
    simp
  | succ n ih =>
    intro nodes h
    by_cases hz : nodes.length = 0
    · have : nodes = [] := List.eq_nil_of_length_eq_zero hz
      subst this
      rw [delete_all_nodes]
      simp
    · rw [delete_all_nodes, if_neg hz]
      have hdrop : (nodes.drop 10000).length ≤ n := by
        simp only [List.length_drop]
        omega
      obtain ⟨he, hops, hsum⟩ := ih (nodes.drop 10000) hdrop
      refine ⟨he, ?_, ?_⟩
      · intro op hop
        rcases List.mem_cons.mp hop with hop | hop
        · exact ⟨min 10000 nodes.length, hop, by omega, by omega⟩
        · exact hops op hop
      · simp only [List.map_cons, List.sum_cons, hsum, List.length_drop, ClearOp.count]
        omega

/-- C9: without confirmation `clear_database` issues no delete operation and
leaves the store unchanged; with confirmation it empties the store, issuing
first relationship deletions and then node deletions, each in batches of at
least 1 and at most 10000 records, whose counts sum to the full store
contents. -/
theorem C9_clear_database (s : GraphStore) :
    clear_database false s = (s, [])
    ∧ (clear_database true s).1 = { nodes := [], rels := [] }
    ∧ (∃ rops nops, (clear_database true s).2 = rops ++ nops
        ∧ (∀ op ∈ rops, ∃ c, op = ClearOp.delete_relationships c ∧ 1 ≤ c ∧ c ≤ 10000)
        ∧ (∀ op ∈ nops, ∃ c, op = ClearOp.delete_nodes c ∧ 1 ≤ c ∧ c ≤ 10000)
        ∧ (rops.map ClearOp.count).sum = s.rels.length
        ∧ (nops.map ClearOp.count).sum = s.nodes.length) := by
  obtain ⟨hr1, hr2, hr3⟩ := delete_all_rels_spec s.rels.length s.rels (Nat.le_refl _)
  obtain ⟨hn1, hn2, hn3⟩ := delete_all_nodes_spec s.nodes.length s.nodes (Nat.le_refl _)
  refine ⟨rfl, ?_, ?_⟩
  · simp only [clear_database]
    rw [if_neg (by simp)]
    simp [hr1, hn1]
  · refine ⟨(delete_all_rels s.rels).2, (delete_all_nodes s.nodes).2, ?_, hr2, hn2, hr3, hn3⟩
    simp only [clear_database]
    rw [if_neg (by simp)]

/-! ### C4: respondent ID generation -/

/-- Counterexample to C4 as stated: `build_knowledge_graph` resets the
respondent counter to 1 at the start of every run, and the generation
timestamp has one-second granularity; two runs of the same process over the
same one-row table within one wall-clock second generate the same respondent
ID twice, so IDs are reused within the process lifetime. -/
theorem C4_counterexample :
    ¬ (((build_knowledge_graph ontTrivial tOneRow tsConst isoConst 2025 dtypeConst).entities.map
          (fun e => e.entity_id))
        ++ ((build_knowledge_graph ontTrivial tOneRow tsConst isoConst 2025 dtypeConst).entities.map
          (fun e => e.entity_id))).Nodup := by
  decide

/-- C4 (amended): the generator strictly increments its counter and returns
the zero-padded counter concatenated with the captured timestamp; within one
run (counter reset to 1, 14-character to-the-second timestamps) the generated
IDs are pairwise distinct; and IDs of two runs of the same process are
distinct whenever the two runs' captured timestamp strings all differ — but
the counter is reset to 1 on every run, so cross-run uniqueness holds only by
virtue of differing timestamps. -/
theorem C4_respondent_ids_amended (n m : Nat) (ts₁ ts₂ : Nat → String)
    (h₁ : ∀ i, (ts₁ i).length = 14) (h₂ : ∀ i, (ts₂ i).length = 14) :
    (∀ counter ts, counter < (generate_unique_respondent_id counter ts).2
      ∧ (generate_unique_respondent_id counter ts).1 = pad6 counter ++ ts)
    ∧ (respondent_id_mapping 1 ts₁ n).Nodup
    ∧ ((∀ i j, ts₁ i ≠ ts₂ j) →
        ∀ x ∈ respondent_id_mapping 1 ts₁ n, x ∉ respondent_id_mapping 1 ts₂ m) := by
  refine ⟨fun counter ts => ⟨Nat.lt_succ_self counter, rfl⟩,
    respondent_id_mapping_nodup 1 ts₁ n h₁, ?_⟩
  intro hts x hx hy
  obtain ⟨i, _, hi⟩ := List.mem_map.mp hx
  obtain ⟨j, _, hj⟩ := List.mem_map.mp hy
  have hxy : generated_respondent_id 1 ts₁ i = generated_respondent_id 1 ts₂ j := by
    rw [hi, hj]
  have hd : (pad6 (1 + i)).data ++ (ts₁ i).data = (pad6 (1 + j)).data ++ (ts₂ j).data := by
    have h2 := congrArg String.data hxy
    simp only [generated_respondent_id, string_data_append] at h2
    exact h2
  have hlen : (ts₁ i).data.length = (ts₂ j).data.length := by
    rw [string_data_length, string_data_length, h₁ i, h₂ j]
  obtain ⟨_, hts'⟩ := List.append_inj' hd hlen
  exact hts i j (congrArg String.mk hts')

/-- Witness for the amended C4 at concrete timestamps one second apart. -/
theorem C4_witness :
    (respondent_id_mapping 1 tsConst 2).Nodup
    ∧ ∀ x ∈ respondent_id_mapping 1 tsConst 2,
        x ∉ respondent_id_mapping 1 (fun _ => "20250101120001") 1 := by
  have ha : ∀ i : Nat, (tsConst i).length = 14 := fun i => by
    show ("20250101120000" : String).length = 14
    decide
  have hb : ∀ i : Nat, ((fun _ : Nat => "20250101120001") i).length = 14 := fun i => by
    show ("20250101120001" : String).length = 14
    decide
  have hc : ∀ i j : Nat, tsConst i ≠ (fun _ : Nat => "20250101120001") j := fun i j => by
    show ("20250101120000" : String) ≠ "20250101120001"
    decide
  have h := C4_respondent_ids_amended 2 1 tsConst (fun _ => "20250101120001") ha hb
  exact ⟨h.2.1, h.2.2 hc⟩

/-! ### C2: sparsity of response-category extraction -/

theorem mem_dictInsert {α : Type} {d : List (String × α)} {k : String} {v : α}
    {p : String × α} (h : p ∈ dictInsert d k v) : p = (k, v) ∨ p ∈ d := by
  unfold dictInsert at h
  by_cases hc : (d.map Prod.fst).contains k
  · rw [if_pos hc] at h
    obtain ⟨q, hq, hqp⟩ := List.mem_map.mp h
    by_cases hk : q.1 = k
    · left
      rw [← hqp]
      simp [hk]
    · right
      rw [← hqp]
      simpa [hk] using hq
  · rw [if_neg hc] at h
    rcases List.mem_append.mp h with h1 | h1
    · exact Or.inr h1
    · simp at h1
      exact Or.inl h1

theorem dictInsert_self_mem {α : Type} (d : List (String × α)) (k : String) (v : α) :
    (k, v) ∈ dictInsert d k v := by
  unfold dictInsert
  by_cases hc : (d.map Prod.fst).contains k
  · rw [if_pos hc]
    obtain ⟨q, hq, hqk⟩ := List.mem_map.mp (contains_iff_mem.mp hc)
    refine List.mem_map.mpr ⟨q, hq, ?_⟩
    simp [hqk]
  · rw [if_neg hc]
    simp

theorem dictInsert_mem_of_ne {α : Type} {d : List (String × α)} {k' : String} {v' : α}
    (k : String) (v : α) (h : (k', v') ∈ d) (hne : k' ≠ k) : (k', v') ∈ dictInsert d k v := by
  unfold dictInsert
  by_cases hc : (d.map Prod.fst).contains k
  · rw [if_pos hc]
    refine List.mem_map.mpr ⟨(k', v'), h, ?_⟩
    simp [hne]
  · rw [if_neg hc]
    exact List.mem_append.mpr (Or.inl h)

theorem cr_fold_none (ont : Ontology) (columns : List String) (row : List Value) :
    ∀ (fs : List String) (acc : List (String × Option String)),
      (∀ f ∈ fs, columns.contains f = true → safe_convert_value (rowGet columns row f) = none) →
      (∀ p ∈ acc, p.2 = none) →
      ∀ p ∈ fs.foldl (category_responses_step ont columns row) acc, p.2 = none := by
  intro fs
  induction fs with
  | nil => intro acc _ hacc; simpa using hacc
  | cons f fs' ih =>
    intro acc hall hacc
    rw [List.foldl_cons]
    apply ih
    · intro g hg hgc
      exact hall g (List.mem_cons.mpr (Or.inr hg)) hgc
    · intro p hp
      unfold category_responses_step at hp
      by_cases hc : columns.contains f
      · rw [if_pos hc] at hp
        rcases mem_dictInsert hp with h1 | h1
        · rw [h1]
          exact hall f (List.mem_cons.mpr (Or.inl rfl)) hc
        · exact hacc p h1
      · rw [if_neg hc] at hp
        exact hacc p hp

theorem cr_fold_mem (ont : Ontology) (columns : List String) (row : List Value)
    (f₀ : String) (hf₀c : columns.contains f₀ = true) :
    ∀ (fs : List String) (acc : List (String × Option String)),
      (∀ f ∈ fs, columns.contains f = true →
        ont.get_descriptive_field_name f = ont.get_descriptive_field_name f₀ → f = f₀) →
      (f₀ ∈ fs ∨ (ont.get_descriptive_field_name f₀,
        safe_convert_value (rowGet columns row f₀)) ∈ acc) →
      (ont.get_descriptive_field_name f₀, safe_convert_value (rowGet columns row f₀))
        ∈ fs.foldl (category_responses_step ont columns row) acc := by
  intro fs
  induction fs with
  | nil =>
    intro acc _ hin
    rcases hin with hin | hin
    · exact absurd hin (List.not_mem_nil f₀)
    · simpa using hin
  | cons f fs' ih =>
    intro acc hinj hin
    rw [List.foldl_cons]
    have hstep : ∀ hacc : (ont.get_descriptive_field_name f₀,
        safe_convert_value (rowGet columns row f₀)) ∈ acc,
        (ont.get_descriptive_field_name f₀, safe_convert_value (rowGet columns row f₀))
          ∈ category_responses_step ont columns row acc f := by
      intro hacc
      unfold category_responses_step
      by_cases hc : columns.contains f
      · rw [if_pos hc]
        by_cases hd : ont.get_descriptive_field_name f = ont.get_descriptive_field_name f₀
        · have hf : f = f₀ := hinj f (List.mem_cons.mpr (Or.inl rfl)) hc hd
          subst hf
          exact dictInsert_self_mem acc _ _
        · exact dictInsert_mem_of_ne _ _ hacc (fun hkk => hd hkk.symm)
      · rw [if_neg hc]
        exact hacc
    have hinj' : ∀ g ∈ fs', columns.contains g = true →
        ont.get_descriptive_field_name g = ont.get_descriptive_field_name f₀ → g = f₀ :=
      fun g hg => hinj g (List.mem_cons.mpr (Or.inr hg))
    rcases hin with hin | hin
    · rcases List.mem_cons.mp hin with hf | hf
      · subst hf
        apply ih _ hinj'
        right
        unfold category_responses_step
        rw [if_pos hf₀c]
        exact dictInsert_self_mem acc _ _
      · exact ih _ hinj' (Or.inl hf)
    · exact ih _ hinj' (Or.inr (hstep hin))

theorem non_null_responses_nil_iff (l : List (String × Option String)) :
    non_null_responses l = [] ↔ ∀ p ∈ l, p.2 = none := by
  unfold non_null_responses
  rw [List.filterMap_eq_nil_iff]
  constructor
  · intro h p hp
    have := h p hp
    cases hv : p.2 with
    | none => rfl
    | some u => rw [hv] at this; simp at this
  · intro h p hp
    rw [h p hp]
    rfl

/-- Counterexample to C2 as stated: with the ontology `ontDupDesc`, whose two
`REL` fields `F1` and `F2` share the descriptive name `d`, and a row where
`F1` holds `"x"` and `F2` is null, the field `F1` has a non-null value yet
the per-category extraction creates no entity and no relationship: the null
`F2` value overwrites the `d` entry of the response dict. -/
theorem C2_counterexample :
    ("REL", ["F1", "F2"]) ∈ ontDupDesc.RELATIONSHIP_MAPPINGS
    ∧ safe_convert_value (rowGet ["F1", "F2"] [some "x", none] "F1") ≠ none
    ∧ response_for_category ontDupDesc ["F1", "F2"] [some "x", none]
        "00000120250101120000" "REL" ["F1", "F2"] "2025-01-01T12:00:00" = ([], []) := by
  refine ⟨by decide, by decide, ?_⟩
  decide

/-- C2 (amended): for one row and one response category whose descriptive
field names are injective on the category's fields that occur as table
columns, the per-category extraction creates no entity and no relationship
when every such field is null/blank, and exactly one response entity and
exactly one relationship when at least one such field has a non-null value.
(Without the injectivity proviso a later null field sharing a descriptive
name can overwrite an earlier non-null value, see the counterexample.) -/
theorem C2_response_sparsity_amended (ont : Ontology) (columns : List String)
    (row : List Value) (respondent_id relationship_type : String)
    (field_set : List String) (iso : String)
    (h_inj : ∀ f₁ ∈ field_set, ∀ f₂ ∈ field_set, columns.contains f₁ = true →
      columns.contains f₂ = true →
      ont.get_descriptive_field_name f₁ = ont.get_descriptive_field_name f₂ → f₁ = f₂) :
    ((∀ f ∈ field_set, columns.contains f = true →
        safe_convert_value (rowGet columns row f) = none) →
      response_for_category ont columns row respondent_id relationship_type field_set iso
        = ([], []))
    ∧ ((∃ f ∈ field_set, columns.contains f = true
          ∧ safe_convert_value (rowGet columns row f) ≠ none) →
      (response_for_category ont columns row respondent_id relationship_type
          field_set iso).1.length = 1
      ∧ (response_for_category ont columns row respondent_id relationship_type
          field_set iso).2.length = 1) := by
  constructor
  · intro hall
    have hnil : non_null_responses (category_responses ont columns row field_set) = [] := by
      rw [non_null_responses_nil_iff]
      exact cr_fold_none ont columns row field_set [] hall (by simp)
    simp [response_for_category, hnil]
  · intro ⟨f₀, hf₀, hf₀c, hf₀v⟩
    obtain ⟨u, hu⟩ := Option.ne_none_iff_exists'.mp hf₀v
    have hmem : (ont.get_descriptive_field_name f₀,
        safe_convert_value (rowGet columns row f₀))
          ∈ category_responses ont columns row field_set := by
      unfold category_responses
      exact cr_fold_mem ont columns row f₀ hf₀c field_set []
        (fun f hf hfc hfd => h_inj f hf f₀ hf₀ hfc hf₀c hfd) (Or.inl hf₀)
    have hnn : (ont.get_descriptive_field_name f₀, u)
        ∈ non_null_responses (category_responses ont columns row field_set) := by
      unfold non_null_responses
      refine List.mem_filterMap.mpr ⟨(ont.get_descriptive_field_name f₀,
        safe_convert_value (rowGet columns row f₀)), hmem, ?_⟩
      rw [hu]
      rfl
    have hne : (non_null_responses (category_responses ont columns row field_set)).isEmpty
        = false := by
      cases hl : non_null_responses (category_responses ont columns row field_set) with
      | nil => rw [hl] at hnn; exact absurd hnn (List.not_mem_nil _)
      | cons a l => rfl
    simp [response_for_category, hne]

/-- Witness for the amended C2: a singleton category with identity naming on a
one-column row — null cell gives no entity, non-null cell gives exactly one
entity and one relationship. -/
theorem C2_witness :
    response_for_category ontTrivial ["Q1"] [none] "r1" "OPINIONS" ["Q1"] "t" = ([], [])
    ∧ (response_for_category ontTrivial ["Q1"] [some "yes"] "r1" "OPINIONS"
        ["Q1"] "t").1.length = 1
    ∧ (response_for_category ontTrivial ["Q1"] [some "yes"] "r1" "OPINIONS"
        ["Q1"] "t").2.length = 1 := by
  have h1 := (C2_response_sparsity_amended ontTrivial ["Q1"] [none] "r1" "OPINIONS" ["Q1"] "t"
    (by decide)).1 (by decide)
  have h2 := (C2_response_sparsity_amended ontTrivial ["Q1"] [some "yes"] "r1" "OPINIONS"
    ["Q1"] "t" (by decide)).2 (by decide)
  exact ⟨h1, h2.1, h2.2⟩

/-! ### C8: respondent entity extraction -/

theorem extract_respondent_entities_length (columns : List String) (counter₀ : Nat)
    (ts : Nat → String) (year : Nat) :
    ∀ (rows : List (List Value)) (i : Nat),
      (extract_respondent_entities columns counter₀ ts year i rows).length = rows.length := by
  intro rows
  induction rows with
  | nil => intro i; rfl
  | cons r rs ih =>
    intro i
    simp only [extract_respondent_entities, List.length_cons, ih (i + 1)]

theorem extract_respondent_entities_getElem? (columns : List String) (counter₀ : Nat)
    (ts : Nat → String) (year : Nat) :
    ∀ (rows : List (List Value)) (i j : Nat),
      (extract_respondent_entities columns counter₀ ts year i rows)[j]?
        = rows[j]?.map (fun row => make_respondent_entity columns row
            (generated_respondent_id counter₀ ts (i + j)) year (i + j)) := by
  intro rows
  induction rows with
  | nil => intro i j; simp [extract_respondent_entities]
  | cons r rs ih =>
    intro i j
    cases j with
    | zero => simp [extract_respondent_entities]
    | succ j' =>
      have hunf : extract_respondent_entities columns counter₀ ts year i (r :: rs)
          = make_respondent_entity columns r (generated_respondent_id counter₀ ts i) year i
            :: extract_respondent_entities columns counter₀ ts year (i + 1) rs := rfl
      rw [hunf, List.getElem?_cons_succ, ih (i + 1) j', List.getElem?_cons_succ]
      have harith : i + 1 + j' = i + (j' + 1) := by omega
      rw [harith]

/-- C8: respondent extraction creates exactly one `Respondent` entity per row,
whose properties are the generated ID, the `UID` value (falling back to the
generated ID when absent/blank), the `PROJECT_NAME` value (falling back to
`"unknown"`), the `YEARRAW` value (falling back to the current year), and the
numeric row index. -/
theorem C8_respondent_extraction (columns : List String) (counter₀ year : Nat)
    (ts : Nat → String) (rows : List (List Value)) :
    (extract_respondent_entities columns counter₀ ts year 0 rows).length = rows.length
    ∧ ∀ j row, rows[j]? = some row →
        ∃ e, (extract_respondent_entities columns counter₀ ts year 0 rows)[j]? = some e
          ∧ e.entity_type = "Respondent"
          ∧ e.entity_id = generated_respondent_id counter₀ ts j
          ∧ e.properties.lookup "unique_id" = some (PropValue.str e.entity_id)
          ∧ e.properties.lookup "original_uid" = some (PropValue.str
              (match safe_convert_value (rowGet columns row "UID") with
               | some u => u
               | none => generated_respondent_id counter₀ ts j))
          ∧ e.properties.lookup "survey_project" = some (PropValue.str
              (match safe_convert_value (rowGet columns row "PROJECT_NAME") with
               | some p => p
               | none => "unknown"))
          ∧ e.properties.lookup "created_at" = some (PropValue.str
              (match safe_convert_value (rowGet columns row "YEARRAW") with
               | some y => y
               | none => pyNatRepr year))
          ∧ e.properties.lookup "row_index" = some (PropValue.int j) := by
  refine ⟨extract_respondent_entities_length columns counter₀ ts year rows 0, ?_⟩
  intro j row hrow
  refine ⟨make_respondent_entity columns row (generated_respondent_id counter₀ ts j) year j,
    ?_, rfl, rfl, ?_, ?_, ?_, ?_, ?_⟩
  · rw [extract_respondent_entities_getElem? columns counter₀ ts year rows 0 j, hrow]
    simp
  · rfl
  · cases hsc : safe_convert_value (rowGet columns row "UID") with
    | none => simp [make_respondent_entity, List.lookup, hsc]
    | some u => simp [make_respondent_entity, List.lookup, hsc]
  · cases hsc : safe_convert_value (rowGet columns row "PROJECT_NAME") with
    | none => simp [make_respondent_entity, List.lookup, hsc]
    | some p => simp [make_respondent_entity, List.lookup, hsc]
  · cases hsc : safe_convert_value (rowGet columns row "YEARRAW") with
    | none => simp [make_respondent_entity, List.lookup, hsc]
    | some y => simp [make_respondent_entity, List.lookup, hsc]
  · rfl

/-- Witness for C8 on a concrete one-row table with an absent `UID` and a
present `PROJECT_NAME`. -/
theorem C8_witness :
    ∃ e, (extract_respondent_entities ["UID", "PROJECT_NAME"] 1 tsConst 2025 0
        [[none, some "Marist Poll"]])[0]? = some e
      ∧ e.entity_type = "Respondent"
      ∧ e.properties.lookup "original_uid"
          = some (PropValue.str (generated_respondent_id 1 tsConst 0))
      ∧ e.properties.lookup "survey_project" = some (PropValue.str "Marist Poll") := by
  obtain ⟨e, he, htype, _, _, houid, hproj, _, _⟩ :=
    (C8_respondent_extraction ["UID", "PROJECT_NAME"] 1 2025 tsConst
      [[none, some "Marist Poll"]]).2 0 [none, some "Marist Poll"] rfl
  refine ⟨e, he, htype, ?_, ?_⟩
  · rw [houid]
    rfl
  · rw [hproj]
    rfl

/-! ### C6: determinism of structure across runs -/

theorem respondent_types_const (columns : List String) (counter₀ : Nat)
    (ts : Nat → String) (year : Nat) :
    ∀ (rows : List (List Value)) (i : Nat),
      (extract_respondent_entities columns counter₀ ts year i rows).map
          (fun e => e.entity_type)
        = rows.map (fun _ => "Respondent") := by
  intro rows
  induction rows with
  | nil => intro i; rfl
  | cons r rs ih =>
    intro i
    simp only [extract_respondent_entities, List.map_cons, ih (i + 1)]
    rfl

theorem response_for_category_types_eq (ont : Ontology) (columns : List String)
    (row : List Value) (rid₁ rid₂ relationship_type : String) (field_set : List String)
    (iso₁ iso₂ : String) :
    ((response_for_category ont columns row rid₁ relationship_type field_set iso₁).1.map
        (fun e => e.entity_type)
      = (response_for_category ont columns row rid₂ relationship_type field_set iso₂).1.map
        (fun e => e.entity_type))
    ∧ ((response_for_category ont columns row rid₁ relationship_type field_set iso₁).2.map
        (fun r => r.relationship_type)
      = (response_for_category ont columns row rid₂ relationship_type field_set iso₂).2.map
        (fun r => r.relationship_type)) := by
  by_cases h : (non_null_responses (category_responses ont columns row field_set)).isEmpty
  · constructor <;> simp [response_for_category, h]
  · constructor <;> simp [response_for_category, h]

theorem row_responses_types_eq (ont : Ontology) (columns : List String)
    (row : List Value) (rid₁ rid₂ : String) (iso₁ iso₂ : Nat → String) :
    ∀ (mappings : List (String × List String)) (j₁ j₂ : Nat),
      ((row_responses ont columns row rid₁ iso₁ j₁ mappings).1.map (fun e => e.entity_type)
        = (row_responses ont columns row rid₂ iso₂ j₂ mappings).1.map (fun e => e.entity_type))
      ∧ ((row_responses ont columns row rid₁ iso₁ j₁ mappings).2.map
          (fun r => r.relationship_type)
        = (row_responses ont columns row rid₂ iso₂ j₂ mappings).2.map
          (fun r => r.relationship_type)) := by
  intro mappings
  induction mappings with
  | nil => intro j₁ j₂; exact ⟨rfl, rfl⟩
  | cons m rest ih =>
    intro j₁ j₂
    obtain ⟨ihe, ihr⟩ := ih (j₁ + 1) (j₂ + 1)
    obtain ⟨hce, hcr⟩ := response_for_category_types_eq ont columns row rid₁ rid₂ m.1 m.2
      (iso₁ j₁) (iso₂ j₂)
    constructor
    · simp only [row_responses, List.map_append]
      rw [ihe, hce]
    · simp only [row_responses, List.map_append]
      rw [ihr, hcr]

theorem extract_response_types_eq (ont : Ontology) (columns : List String)
    (rids₁ rids₂ : List String) (iso₁ iso₂ : Nat → Nat → String)
    (hlen : rids₁.length = rids₂.length) :
    ∀ (rows : List (List Value)) (i : Nat),
      ((extract_response_entities ont columns rids₁ iso₁ i rows).1.map
          (fun e => e.entity_type)
        = (extract_response_entities ont columns rids₂ iso₂ i rows).1.map
          (fun e => e.entity_type))
      ∧ ((extract_response_entities ont columns rids₁ iso₁ i rows).2.map
          (fun r => r.relationship_type)
        = (extract_response_entities ont columns rids₂ iso₂ i rows).2.map
          (fun r => r.relationship_type)) := by
  intro rows
  induction rows with
  | nil => intro i; exact ⟨rfl, rfl⟩
  | cons r rs ih =>
    intro i
    obtain ⟨ihe, ihr⟩ := ih (i + 1)
    cases h₁ : rids₁.get? i with
    | none =>
      have h₂ : rids₂.get? i = none := by
        rw [List.get?_eq_none] at h₁ ⊢
        omega
      constructor <;> simp only [extract_response_entities, h₁, h₂] <;> assumption
    | some rid₁ =>
      cases h₂ : rids₂.get? i with
      | none =>
        rw [List.get?_eq_none] at h₂
        have h₁' : rids₁.get? i = none := List.get?_eq_none.mpr (by omega)
        rw [h₁'] at h₁
        exact absurd h₁ (by simp)
      | some rid₂ =>
        obtain ⟨hre, hrr⟩ := row_responses_types_eq ont columns r rid₁ rid₂ (iso₁ i) (iso₂ i)
          ont.RELATIONSHIP_MAPPINGS 0 0
        constructor
        · simp only [extract_response_entities, h₁, h₂, List.map_append]
          rw [ihe, hre]
        · simp only [extract_response_entities, h₁, h₂, List.map_append]
          rw [ihr, hrr]

theorem filterMap_map_eq {α β γ : Type} (f₁ f₂ : α → Option β) (g : β → γ)
    (h : ∀ a, (f₁ a).map g = (f₂ a).map g) :
    ∀ l : List α, (l.filterMap f₁).map g = (l.filterMap f₂).map g := by
  intro l
  induction l with
  | nil => rfl
  | cons a l ih =>
    cases hf₁ : f₁ a with
    | none =>
      have hf₂ : f₂ a = none := by
        have := h a
        rw [hf₁] at this
        cases hf₂ : f₂ a with
        | none => rfl
        | some b => rw [hf₂] at this; exact absurd this.symm (by simp)
      rw [List.filterMap_cons_none hf₁, List.filterMap_cons_none hf₂]
      exact ih
    | some b₁ =>
      have hg := h a
      rw [hf₁] at hg
      cases hf₂ : f₂ a with
      | none => rw [hf₂] at hg; exact absurd hg (by simp)
      | some b₂ =>
        rw [hf₂] at hg
        simp only [Option.map_some'] at hg
        rw [List.filterMap_cons_some hf₁, List.filterMap_cons_some hf₂]
        simp only [List.map_cons]
        rw [ih]
        injection hg with hg'
        rw [hg']

theorem survey_rel_types_eq (t : Table) (rids₁ rids₂ : List String)
    (hlen : rids₁.length = rids₂.length) (p : String) :
    (survey_for_project t rids₁ p).2.map (fun r => r.relationship_type)
      = (survey_for_project t rids₂ p).2.map (fun r => r.relationship_type) := by
  show ((projectRows t p).filterMap (fun q : Nat × List Value =>
      match rids₁.get? q.1 with
      | none => none
      | some respondent_id =>
        some ({ source_id := "survey_" ++ safe_project_name p
                target_id := respondent_id
                relationship_type := "HAS_RESPONDENT"
                properties := [("survey_project", PropValue.str p)] : SurveyRelationship }))).map
        (fun r : SurveyRelationship => r.relationship_type)
    = ((projectRows t p).filterMap (fun q : Nat × List Value =>
      match rids₂.get? q.1 with
      | none => none
      | some respondent_id =>
        some ({ source_id := "survey_" ++ safe_project_name p
                target_id := respondent_id
                relationship_type := "HAS_RESPONDENT"
                properties := [("survey_project", PropValue.str p)] : SurveyRelationship }))).map
        (fun r : SurveyRelationship => r.relationship_type)
  apply filterMap_map_eq
  intro q
  cases h₁ : rids₁.get? q.1 with
  | none =>
    have h₂ : rids₂.get? q.1 = none := by
      rw [List.get?_eq_none] at h₁ ⊢
      omega
    rw [h₂]
  | some rid₁ =>
    cases h₂ : rids₂.get? q.1 with
    | none =>
      rw [List.get?_eq_none] at h₂
      have h₁' : rids₁.get? q.1 = none := List.get?_eq_none.mpr (by omega)
      rw [h₁'] at h₁
      exact absurd h₁ (by simp)
    | some rid₂ => rfl

theorem survey_types_eq (t : Table) (rids₁ rids₂ : List String)
    (hlen : rids₁.length = rids₂.length) :
    ((extract_survey_metadata t rids₁).1.map (fun e => e.entity_type)
      = (extract_survey_metadata t rids₂).1.map (fun e => e.entity_type))
    ∧ ((extract_survey_metadata t rids₁).2.map (fun r => r.relationship_type)
      = (extract_survey_metadata t rids₂).2.map (fun r => r.relationship_type)) := by
  by_cases hc : t.columns.contains "PROJECT_NAME"
  · constructor
    · simp only [extract_survey_metadata, if_pos hc, List.map_map]
      rfl
    · simp only [extract_survey_metadata, if_pos hc, List.map_flatMap]
      congr 1
      funext p
      exact survey_rel_types_eq t rids₁ rids₂ hlen p
  · have hc' : ¬ ("PROJECT_NAME" ∈ t.columns) := fun hm => hc (contains_iff_mem.mpr hm)
    constructor <;> simp [extract_survey_metadata, hc']

/-- C6: for a fixed table and ontology, two extraction runs — differing only
in the wall-clock timestamps captured during the runs — produce the same
number of entities, the same number of relationships, and the same lists
(hence sets) of `entity_type` and `relationship_type` tags. -/
theorem C6_structural_determinism (ont : Ontology) (t : Table) (year : Nat)
    (dtype : String → String) (ts₁ ts₂ : Nat → String) (iso₁ iso₂ : Nat → Nat → String) :
    (build_knowledge_graph ont t ts₁ iso₁ year dtype).entities.length
      = (build_knowledge_graph ont t ts₂ iso₂ year dtype).entities.length
    ∧ (build_knowledge_graph ont t ts₁ iso₁ year dtype).relationships.length
      = (build_knowledge_graph ont t ts₂ iso₂ year dtype).relationships.length
    ∧ (build_knowledge_graph ont t ts₁ iso₁ year dtype).entities.map (fun e => e.entity_type)
      = (build_knowledge_graph ont t ts₂ iso₂ year dtype).entities.map (fun e => e.entity_type)
    ∧ (build_knowledge_graph ont t ts₁ iso₁ year dtype).relationships.map
        (fun r => r.relationship_type)
      = (build_knowledge_graph ont t ts₂ iso₂ year dtype).relationships.map
        (fun r => r.relationship_type)
    ∧ (∀ τ, τ ∈ (build_knowledge_graph ont t ts₁ iso₁ year dtype).entities.map
          (fun e => e.entity_type)
        ↔ τ ∈ (build_knowledge_graph ont t ts₂ iso₂ year dtype).entities.map
          (fun e => e.entity_type))
    ∧ (∀ τ, τ ∈ (build_knowledge_graph ont t ts₁ iso₁ year dtype).relationships.map
          (fun r => r.relationship_type)
        ↔ τ ∈ (build_knowledge_graph ont t ts₂ iso₂ year dtype).relationships.map
          (fun r => r.relationship_type)) := by
  have hlen : (respondent_id_mapping 1 ts₁ t.rows.length).length
      = (respondent_id_mapping 1 ts₂ t.rows.length).length := by
    simp [respondent_id_mapping]
  have he : (build_knowledge_graph ont t ts₁ iso₁ year dtype).entities.map
      (fun e => e.entity_type)
      = (build_knowledge_graph ont t ts₂ iso₂ year dtype).entities.map
      (fun e => e.entity_type) := by
    simp only [build_knowledge_graph, List.map_append]
    rw [respondent_types_const t.columns 1 ts₁ year t.rows 0,
      respondent_types_const t.columns 1 ts₂ year t.rows 0,
      (extract_response_types_eq ont t.columns (respondent_id_mapping 1 ts₁ t.rows.length)
        (respondent_id_mapping 1 ts₂ t.rows.length) iso₁ iso₂ hlen t.rows 0).1,
      (survey_types_eq t (respondent_id_mapping 1 ts₁ t.rows.length)
        (respondent_id_mapping 1 ts₂ t.rows.length) hlen).1]
  have hr : (build_knowledge_graph ont t ts₁ iso₁ year dtype).relationships.map
      (fun r => r.relationship_type)
      = (build_knowledge_graph ont t ts₂ iso₂ year dtype).relationships.map
      (fun r => r.relationship_type) := by
    simp only [build_knowledge_graph, List.map_append]
    rw [(extract_response_types_eq ont t.columns (respondent_id_mapping 1 ts₁ t.rows.length)
        (respondent_id_mapping 1 ts₂ t.rows.length) iso₁ iso₂ hlen t.rows 0).2,
      (survey_types_eq t (respondent_id_mapping 1 ts₁ t.rows.length)
        (respondent_id_mapping 1 ts₂ t.rows.length) hlen).2]
  have hel : (build_knowledge_graph ont t ts₁ iso₁ year dtype).entities.length
      = (build_knowledge_graph ont t ts₂ iso₂ year dtype).entities.length := by
    have := congrArg List.length he
    simpa using this
  have hrl : (build_knowledge_graph ont t ts₁ iso₁ year dtype).relationships.length
      = (build_knowledge_graph ont t ts₂ iso₂ year dtype).relationships.length := by
    have := congrArg List.length hr
    simpa using this
  exact ⟨hel, hrl, he, hr, fun τ => by rw [he], fun τ => by rw [hr]⟩

/-! ### C10: referential closure of the extraction output -/

theorem validation_passed_iff (entities : List SurveyEntity)
    (relationships : List SurveyRelationship) :
    ((validate_entity_relationships entities relationships).validation_passed = true
      ↔ ∀ rel ∈ relationships,
          rel.source_id ∈ entities.map (fun e => e.entity_id)
          ∧ rel.target_id ∈ entities.map (fun e => e.entity_id)) := by
  have h := validate_fold_empty (entities.map (fun e => e.entity_id)) relationships ([], 0)
  simp only [validate_entity_relationships]
  rw [show ((relationships.foldl (validate_step (entities.map (fun e => e.entity_id)))
    ([], 0)).1.length == 0) = true
      ↔ (relationships.foldl (validate_step (entities.map (fun e => e.entity_id)))
    ([], 0)).1 = [] by
    rw [beq_iff_eq, List.length_eq_zero]]
  rw [h]
  simp only [true_and]
  constructor
  · intro hall rel hrel
    have h0 := hall rel hrel
    exact ⟨contains_iff_mem.mp h0.1, contains_iff_mem.mp h0.2⟩
  · intro hall rel hrel
    have h0 := hall rel hrel
    exact ⟨contains_iff_mem.mpr h0.1, contains_iff_mem.mpr h0.2⟩

theorem extract_respondent_ids (columns : List String) (counter₀ : Nat)
    (ts : Nat → String) (year : Nat) :
    ∀ (rows : List (List Value)) (i : Nat),
      (extract_respondent_entities columns counter₀ ts year i rows).map (fun e => e.entity_id)
        = (List.range rows.length).map (fun k => generated_respondent_id counter₀ ts (i + k)) := by
  intro rows
  induction rows with
  | nil => intro i; rfl
  | cons r rs ih =>
    intro i
    show generated_respondent_id counter₀ ts i
        :: (extract_respondent_entities columns counter₀ ts year (i + 1) rs).map
          (fun e => e.entity_id)
      = _
    rw [ih (i + 1), List.length_cons, List.range_succ_eq_map, List.map_cons, List.map_map]
    have h0 : generated_respondent_id counter₀ ts (i + 0) = generated_respondent_id counter₀ ts i := by
      rw [Nat.add_zero]
    rw [h0]
    have hfun : ((fun k => generated_respondent_id counter₀ ts (i + k)) ∘ Nat.succ)
        = fun k => generated_respondent_id counter₀ ts (i + 1 + k) := by
      funext k
      show generated_respondent_id counter₀ ts (i + (k + 1)) = _
      have : i + (k + 1) = i + 1 + k := by omega
      rw [this]
    rw [hfun]

theorem build_respondent_ids (t : Table) (ts : Nat → String) (year : Nat) :
    (extract_respondent_entities t.columns 1 ts year 0 t.rows).map (fun e => e.entity_id)
      = respondent_id_mapping 1 ts t.rows.length := by
  rw [extract_respondent_ids t.columns 1 ts year t.rows 0]
  unfold respondent_id_mapping
  apply List.map_congr_left
  intro k _
  rw [Nat.zero_add]

theorem response_for_category_closure (ont : Ontology) (columns : List String)
    (row : List Value) (rid relationship_type : String) (field_set : List String)
    (iso : String) :
    ∀ rel ∈ (response_for_category ont columns row rid relationship_type field_set iso).2,
      rel.source_id = rid
      ∧ rel.target_id ∈ (response_for_category ont columns row rid relationship_type
          field_set iso).1.map (fun e => e.entity_id) := by
  intro rel hrel
  by_cases h : (non_null_responses (category_responses ont columns row field_set)).isEmpty
  · simp [response_for_category, h] at hrel
  · simp only [response_for_category, h, Bool.false_eq_true, if_false] at hrel ⊢
    simp at hrel
    rw [hrel]
    exact ⟨rfl, by simp⟩

theorem row_responses_closure (ont : Ontology) (columns : List String) (row : List Value)
    (rid : String) (iso : Nat → String) :
    ∀ (mappings : List (String × List String)) (j : Nat),
      ∀ rel ∈ (row_responses ont columns row rid iso j mappings).2,
        rel.source_id = rid
        ∧ rel.target_id ∈ (row_responses ont columns row rid iso j mappings).1.map
            (fun e => e.entity_id) := by
  intro mappings
  induction mappings with
  | nil => intro j rel hrel; exact absurd hrel (List.not_mem_nil rel)
  | cons m rest ih =>
    intro j rel hrel
    simp only [row_responses] at hrel ⊢
    rcases List.mem_append.mp hrel with hm | hm
    · obtain ⟨hsrc, htgt⟩ := response_for_category_closure ont columns row rid m.1 m.2
        (iso j) rel hm
      refine ⟨hsrc, ?_⟩
      rw [List.map_append]
      exact List.mem_append.mpr (Or.inl htgt)
    · obtain ⟨hsrc, htgt⟩ := ih (j + 1) rel hm
      refine ⟨hsrc, ?_⟩
      rw [List.map_append]
      exact List.mem_append.mpr (Or.inr htgt)

theorem extract_response_closure (ont : Ontology) (columns : List String)
    (rids : List String) (iso : Nat → Nat → String) :
    ∀ (rows : List (List Value)) (i : Nat),
      ∀ rel ∈ (extract_response_entities ont columns rids iso i rows).2,
        (∃ j rid, rids.get? j = some rid ∧ rel.source_id = rid)
        ∧ rel.target_id ∈ (extract_response_entities ont columns rids iso i rows).1.map
            (fun e => e.entity_id) := by
  intro rows
  induction rows with
  | nil => intro i rel hrel; exact absurd hrel (List.not_mem_nil rel)
  | cons r rs ih =>
    intro i rel hrel
    cases hr : rids.get? i with
    | none =>
      simp only [extract_response_entities, hr] at hrel ⊢
      exact ih (i + 1) rel hrel
    | some rid =>
      simp only [extract_response_entities, hr] at hrel ⊢
      rcases List.mem_append.mp hrel with hm | hm
      · obtain ⟨hsrc, htgt⟩ := row_responses_closure ont columns r rid (iso i)
          ont.RELATIONSHIP_MAPPINGS 0 rel hm
        refine ⟨⟨i, rid, hr, hsrc⟩, ?_⟩
        rw [List.map_append]
        exact List.mem_append.mpr (Or.inl htgt)
      · obtain ⟨hsrc, htgt⟩ := ih (i + 1) rel hm
        refine ⟨hsrc, ?_⟩
        rw [List.map_append]
        exact List.mem_append.mpr (Or.inr htgt)

theorem survey_rels_closure (t : Table) (rids : List String) :
    ∀ rel ∈ (extract_survey_metadata t rids).2,
      rel.source_id ∈ (extract_survey_metadata t rids).1.map (fun e => e.entity_id)
      ∧ (∃ j rid, rids.get? j = some rid ∧ rel.target_id = rid) := by
  intro rel hrel
  by_cases hc : t.columns.contains "PROJECT_NAME"
  · simp only [extract_survey_metadata, if_pos hc] at hrel ⊢
    obtain ⟨p, hp, hrelp⟩ := List.mem_flatMap.mp hrel
    have hrelp' : rel ∈ (projectRows t p).filterMap (fun q =>
        match rids.get? q.1 with
        | none => none
        | some respondent_id =>
          some ({ source_id := "survey_" ++ safe_project_name p
                  target_id := respondent_id
                  relationship_type := "HAS_RESPONDENT"
                  properties := [("survey_project", PropValue.str p)] : SurveyRelationship })) :=
      hrelp
    obtain ⟨q, _, hq⟩ := List.mem_filterMap.mp hrelp'
    cases hget : rids.get? q.1 with
    | none => rw [hget] at hq; exact absurd hq (by simp)
    | some rid =>
      rw [hget] at hq
      have hrel_eq : rel = { source_id := "survey_" ++ safe_project_name p
                             target_id := rid
                             relationship_type := "HAS_RESPONDENT"
                             properties := [("survey_project", PropValue.str p)] } := by
        injection hq with h'
        rw [← h']
      constructor
      · rw [List.map_map]
        refine List.mem_map.mpr ⟨p, hp, ?_⟩
        rw [hrel_eq]
        rfl
      · exact ⟨q.1, rid, hget, by rw [hrel_eq]⟩
  · simp only [extract_survey_metadata, if_neg hc] at hrel
    exact absurd hrel (List.not_mem_nil rel)

/-- C10: the extraction output of one `build_knowledge_graph` call is
referentially closed — every produced relationship's `source_id` and
`target_id` equal the `entity_id` of some entity produced in the same call —
so the validator always passes on it. -/
theorem C10_referential_closure (ont : Ontology) (t : Table) (ts : Nat → String)
    (iso : Nat → Nat → String) (year : Nat) (dtype : String → String) :
    (validate_entity_relationships
        (build_knowledge_graph ont t ts iso year dtype).entities
        (build_knowledge_graph ont t ts iso year dtype).relationships).validation_passed
      = true := by
  rw [validation_passed_iff]
  intro rel hrel
  simp only [build_knowledge_graph] at hrel ⊢
  rw [List.map_append, List.map_append, List.map_append]
  have hrid_mem : ∀ j rid, (respondent_id_mapping 1 ts t.rows.length).get? j = some rid →
      rid ∈ (extract_respondent_entities t.columns 1 ts year 0 t.rows).map
        (fun e => e.entity_id) := by
    intro j rid hj
    rw [build_respondent_ids t ts year]
    exact List.get?_mem hj
  rcases List.mem_append.mp hrel with hm | hm
  · obtain ⟨⟨j, rid, hj, hsrc⟩, htgt⟩ := extract_response_closure ont t.columns
      (respondent_id_mapping 1 ts t.rows.length) iso t.rows 0 rel hm
    constructor
    · apply List.mem_append.mpr
      left
      apply List.mem_append.mpr
      left
      apply List.mem_append.mpr
      left
      rw [hsrc]
      exact hrid_mem j rid hj
    · apply List.mem_append.mpr
      left
      apply List.mem_append.mpr
      left
      apply List.mem_append.mpr
      right
      exact htgt
  · obtain ⟨hsrc, j, rid, hj, htgt⟩ := survey_rels_closure t
      (respondent_id_mapping 1 ts t.rows.length) rel hm
    constructor
    · apply List.mem_append.mpr
      right
      exact hsrc
    · apply List.mem_append.mpr
      left
      apply List.mem_append.mpr
      left
      apply List.mem_append.mpr
      left
      rw [htgt]
      exact hrid_mem j rid hj

/-! ### C1: uniqueness of entity IDs within one run -/

theorem gid_data (counter₀ : Nat) (ts : Nat → String) (i : Nat) :
    (generated_respondent_id counter₀ ts i).data = (pad6 (counter₀ + i)).data ++ (ts i).data := by
  show (pad6 (counter₀ + i) ++ ts i).data = _
  rw [string_data_append]

theorem gid_length (counter₀ : Nat) (ts : Nat → String) (i : Nat)
    (h14 : (ts i).length = 14) (hc : counter₀ + i < 1000000) :
    (generated_respondent_id counter₀ ts i).data.length = 20 := by
  rw [gid_data, List.length_append, pad6_data_length hc, string_data_length, h14]

theorem gid_head_digit (counter₀ : Nat) (ts : Nat → String) (i : Nat) :
    ∃ c cs, (generated_respondent_id counter₀ ts i).data = c :: cs ∧ c.isDigit = true := by
  obtain ⟨c, cs, hc, hd⟩ := pad6_head_digit (counter₀ + i)
  refine ⟨c, cs ++ (ts i).data, ?_, hd⟩
  rw [gid_data, hc]
  rfl

theorem string_append_left_cancel {a b c : String} (h : a ++ b = a ++ c) : b = c := by
  have hd := congrArg String.data h
  rw [string_data_append, string_data_append] at hd
  have h2 : b.data = c.data := List.append_cancel_left hd
  have h3 := congrArg String.mk h2
  exact h3

theorem firstDedupAux_spec : ∀ (fuel : Nat) (l : List String), l.length ≤ fuel →
    (firstDedupAux fuel l).Nodup ∧ ∀ x ∈ firstDedupAux fuel l, x ∈ l := by
  intro fuel
  induction fuel with
  | zero =>
    intro l h
    have : l = [] := List.eq_nil_of_length_eq_zero (by omega)
    subst this
    exact ⟨List.nodup_nil, by simp [firstDedupAux]⟩
  | succ fuel ih =>
    intro l h
    cases l with
    | nil => exact ⟨List.nodup_nil, by simp [firstDedupAux]⟩
    | cons x xs =>
      have hlen : (xs.filter (fun y => decide (y ≠ x))).length ≤ fuel := by
        have := List.length_filter_le (fun y => decide (y ≠ x)) xs
        simp only [List.length_cons] at h
        omega
      obtain ⟨hnd, hmem⟩ := ih _ hlen
      constructor
      · show (x :: firstDedupAux fuel _).Nodup
        rw [List.nodup_cons]
        refine ⟨?_, hnd⟩
        intro hx
        have h1 := hmem x hx
        have h2 := List.of_mem_filter h1
        simp at h2
      · intro z hz
        rcases List.mem_cons.mp hz with hz | hz
        · rw [hz]
          exact List.mem_cons_self x xs
        · exact List.mem_cons.mpr (Or.inr (List.mem_of_mem_filter (hmem z hz)))

theorem firstDedup_spec (l : List String) :
    (firstDedup l).Nodup ∧ ∀ x ∈ firstDedup l, x ∈ l :=
  firstDedupAux_spec l.length l (Nat.le_refl _)

theorem response_for_category_ids_empty (ont : Ontology) (columns : List String)
    (row : List Value) (rid relationship_type : String) (field_set : List String)
    (iso : String)
    (h : (non_null_responses (category_responses ont columns row field_set)).isEmpty = true) :
    (response_for_category ont columns row rid relationship_type field_set iso).1 = [] := by
  simp [response_for_category, h]

theorem response_for_category_ids_single (ont : Ontology) (columns : List String)
    (row : List Value) (rid relationship_type : String) (field_set : List String)
    (iso : String)
    (h : (non_null_responses (category_responses ont columns row field_set)).isEmpty = false) :
    (response_for_category ont columns row rid relationship_type field_set iso).1.map
        (fun e => e.entity_id)
      = [rid ++ "_" ++ pyLower relationship_type] := by
  simp [response_for_category, h]

theorem row_responses_ids (ont : Ontology) (columns : List String) (row : List Value)
    (rid : String) (iso : Nat → String) :
    ∀ (mappings : List (String × List String)) (j : Nat),
      (row_responses ont columns row rid iso j mappings).1.map (fun e => e.entity_id)
        = (mappings.filter (fun m =>
            !(non_null_responses (category_responses ont columns row m.2)).isEmpty)).map
          (fun m => rid ++ "_" ++ pyLower m.1) := by
  intro mappings
  induction mappings with
  | nil => intro j; rfl
  | cons m rest ih =>
    intro j
    show ((response_for_category ont columns row rid m.1 m.2 (iso j)).1
        ++ (row_responses ont columns row rid iso (j + 1) rest).1).map (fun e => e.entity_id) = _
    rw [List.map_append, ih (j + 1)]
    cases h : (non_null_responses (category_responses ont columns row m.2)).isEmpty with
    | true =>
      rw [response_for_category_ids_empty ont columns row rid m.1 m.2 (iso j) h]
      rw [List.filter_cons_of_neg (by simp [h])]
      rfl
    | false =>
      rw [response_for_category_ids_single ont columns row rid m.1 m.2 (iso j) h]
      rw [List.filter_cons_of_pos (by simp [h])]
      rfl

theorem extract_response_ids_nodup (ont : Ontology) (columns : List String)
    (rids : List String) (iso : Nat → Nat → String)
    (hkeys : (ont.RELATIONSHIP_MAPPINGS.map Prod.fst).Nodup)
    (hlow : ∀ k₁ ∈ ont.RELATIONSHIP_MAPPINGS.map Prod.fst,
      ∀ k₂ ∈ ont.RELATIONSHIP_MAPPINGS.map Prod.fst, pyLower k₁ = pyLower k₂ → k₁ = k₂)
    (h_rids_inj : ∀ j₁ j₂ r₁ r₂, rids.get? j₁ = some r₁ → rids.get? j₂ = some r₂ →
      j₁ ≠ j₂ → r₁ ≠ r₂)
    (h_rids_len : ∀ j r, rids.get? j = some r → r.data.length = 20) :
    ∀ (rows : List (List Value)) (i : Nat),
      (((extract_response_entities ont columns rids iso i rows).1.map
          (fun e => e.entity_id)).Nodup)
      ∧ ∀ x ∈ (extract_response_entities ont columns rids iso i rows).1.map
          (fun e => e.entity_id),
          ∃ j r k, i ≤ j ∧ rids.get? j = some r
            ∧ k ∈ ont.RELATIONSHIP_MAPPINGS.map Prod.fst ∧ x = r ++ "_" ++ pyLower k := by
  intro rows
  induction rows with
  | nil =>
    intro i
    exact ⟨List.nodup_nil, by intro x hx; exact absurd hx (List.not_mem_nil x)⟩
  | cons row rs ih =>
    intro i
    obtain ⟨ihn, ihs⟩ := ih (i + 1)
    cases hr : rids.get? i with
    | none =>
      constructor
      · simpa only [extract_response_entities, hr] using ihn
      · intro x hx
        rw [show (extract_response_entities ont columns rids iso i (row :: rs)).1
            = (extract_response_entities ont columns rids iso (i + 1) rs).1 by
          simp only [extract_response_entities, hr]] at hx
        obtain ⟨j, r, k, hij, hjr, hk, hx'⟩ := ihs x hx
        exact ⟨j, r, k, by omega, hjr, hk, hx'⟩
    | some rid =>
      have hsplit : (extract_response_entities ont columns rids iso i (row :: rs)).1
          = (row_responses ont columns row rid (iso i) 0 ont.RELATIONSHIP_MAPPINGS).1
            ++ (extract_response_entities ont columns rids iso (i + 1) rs).1 := by
        simp only [extract_response_entities, hr]
      have hrow_ids := row_responses_ids ont columns row rid (iso i)
        ont.RELATIONSHIP_MAPPINGS 0
      have hmapnodup : ont.RELATIONSHIP_MAPPINGS.Nodup := List.Nodup.of_map Prod.fst hkeys
      have hfilter_sub : ∀ m ∈ ont.RELATIONSHIP_MAPPINGS.filter (fun m =>
          !(non_null_responses (category_responses ont columns row m.2)).isEmpty),
          m ∈ ont.RELATIONSHIP_MAPPINGS := fun m hm => List.mem_of_mem_filter hm
      have hrow_nodup : ((row_responses ont columns row rid (iso i) 0
          ont.RELATIONSHIP_MAPPINGS).1.map (fun e => e.entity_id)).Nodup := by
        rw [hrow_ids]
        apply List.Nodup.map_on
        · intro m₁ hm₁ m₂ hm₂ heq
          have hlow' : pyLower m₁.1 = pyLower m₂.1 :=
            string_append_left_cancel heq
          have hk₁ : m₁.1 ∈ ont.RELATIONSHIP_MAPPINGS.map Prod.fst :=
            List.mem_map.mpr ⟨m₁, hfilter_sub m₁ hm₁, rfl⟩
          have hk₂ : m₂.1 ∈ ont.RELATIONSHIP_MAPPINGS.map Prod.fst :=
            List.mem_map.mpr ⟨m₂, hfilter_sub m₂ hm₂, rfl⟩
          have hfst : m₁.1 = m₂.1 := hlow m₁.1 hk₁ m₂.1 hk₂ hlow'
          exact List.inj_on_of_nodup_map hkeys (hfilter_sub m₁ hm₁) (hfilter_sub m₂ hm₂) hfst
        · exact List.Nodup.sublist (List.filter_sublist _) hmapnodup
      have hrow_shape : ∀ x ∈ (row_responses ont columns row rid (iso i) 0
          ont.RELATIONSHIP_MAPPINGS).1.map (fun e => e.entity_id),
          ∃ k, k ∈ ont.RELATIONSHIP_MAPPINGS.map Prod.fst ∧ x = rid ++ "_" ++ pyLower k := by
        intro x hx
        rw [hrow_ids] at hx
        obtain ⟨m, hm, hxm⟩ := List.mem_map.mp hx
        exact ⟨m.1, List.mem_map.mpr ⟨m, hfilter_sub m hm, rfl⟩, hxm.symm⟩
      constructor
      · rw [hsplit, List.map_append, List.nodup_append]
        refine ⟨hrow_nodup, ihn, ?_⟩
        intro x hx hx'
        obtain ⟨k, hk, hxk⟩ := hrow_shape x hx
        obtain ⟨j, r, k', hij, hjr, hk', hxk'⟩ := ihs x hx'
        have hne : rid ≠ r := h_rids_inj i j rid r hr hjr (by omega)
        have hdata : rid.data ++ '_' :: (pyLower k).data
            = r.data ++ '_' :: (pyLower k').data := by
          have := congrArg String.data (hxk.symm.trans hxk')
          rw [string_data_append, string_data_append,
            string_data_append, string_data_append] at this
          simpa using this
        have hlens : rid.data.length = r.data.length := by
          rw [h_rids_len i rid hr, h_rids_len j r hjr]
        obtain ⟨hpre, _⟩ := List.append_inj hdata hlens
        exact hne (congrArg String.mk hpre)
      · intro x hx
        rw [hsplit, List.map_append] at hx
        rcases List.mem_append.mp hx with hm | hm
        · obtain ⟨k, hk, hxk⟩ := hrow_shape x hm
          exact ⟨i, rid, k, Nat.le_refl i, hr, hk, hxk⟩
        · obtain ⟨j, r, k, hij, hjr, hk, hxk⟩ := ihs x hm
          exact ⟨j, r, k, by omega, hjr, hk, hxk⟩

theorem question_ids_nodup (ont : Ontology) (t : Table) (dtype : String → String)
    (hdesc : ∀ c₁ ∈ t.columns, ∀ c₂ ∈ t.columns,
      (ont.get_all_survey_fields).contains (pyUpper c₁) = true →
      (ont.get_all_survey_fields).contains (pyUpper c₂) = true →
      ont.get_descriptive_field_name c₁ = ont.get_descriptive_field_name c₂ → c₁ = c₂) :
    ∀ (cols processed : List String), (∀ c ∈ cols, c ∈ t.columns) →
      (((extract_question_entities_from ont t dtype processed cols).map
          (fun e => e.entity_id)).Nodup)
      ∧ ∀ x ∈ (extract_question_entities_from ont t dtype processed cols).map
          (fun e => e.entity_id),
          ∃ c, c ∈ cols ∧ c ∈ t.columns
            ∧ (ont.get_all_survey_fields).contains (pyUpper c) = true ∧ c ∉ processed
            ∧ x = "question_" ++ ont.get_descriptive_field_name c := by
  intro cols
  induction cols with
  | nil =>
    intro processed _
    exact ⟨List.nodup_nil, by intro x hx; exact absurd hx (List.not_mem_nil x)⟩
  | cons c cs ih =>
    intro processed hsub
    have hsub' : ∀ c' ∈ cs, c' ∈ t.columns := fun c' hc' => hsub c' (List.mem_cons.mpr (Or.inr hc'))
    have hct : c ∈ t.columns := hsub c (List.mem_cons.mpr (Or.inl rfl))
    cases hrec : (ont.get_all_survey_fields).contains (pyUpper c) with
    | false =>
      have hsame : extract_question_entities_from ont t dtype processed (c :: cs)
          = extract_question_entities_from ont t dtype processed cs := by
        simp only [extract_question_entities_from, hrec]
        rfl
      obtain ⟨ihn, ihs⟩ := ih processed hsub'
      rw [hsame]
      refine ⟨ihn, ?_⟩
      intro x hx
      obtain ⟨c', hc', hc't, hc'rec, hc'p, hx'⟩ := ihs x hx
      exact ⟨c', List.mem_cons.mpr (Or.inr hc'), hc't, hc'rec, hc'p, hx'⟩
    | true =>
      cases hproc : processed.contains c with
      | true =>
        have hsame : extract_question_entities_from ont t dtype processed (c :: cs)
            = extract_question_entities_from ont t dtype processed cs := by
          simp only [extract_question_entities_from, hrec, hproc]
          rfl
        obtain ⟨ihn, ihs⟩ := ih processed hsub'
        rw [hsame]
        refine ⟨ihn, ?_⟩
        intro x hx
        obtain ⟨c', hc', hc't, hc'rec, hc'p, hx'⟩ := ihs x hx
        exact ⟨c', List.mem_cons.mpr (Or.inr hc'), hc't, hc'rec, hc'p, hx'⟩
      | false =>
        have hsame : extract_question_entities_from ont t dtype processed (c :: cs)
            = make_question_entity ont t dtype c
              :: extract_question_entities_from ont t dtype (c :: processed) cs := by
          simp only [extract_question_entities_from, hrec, hproc]
          rfl
        obtain ⟨ihn, ihs⟩ := ih (c :: processed) hsub'
        have hcp : c ∉ processed := fun hm =>
          Bool.false_ne_true (hproc.symm.trans (contains_iff_mem.mpr hm))
        rw [hsame, List.map_cons]
        constructor
        · rw [List.nodup_cons]
          refine ⟨?_, ihn⟩
          intro hx
          obtain ⟨c', hc', hc't, hc'rec, hc'p, hx'⟩ := ihs _ hx
          have hcc' : c' ≠ c := fun hcc =>
            hc'p (hcc ▸ List.mem_cons.mpr (Or.inl rfl))
          have hdq : ont.get_descriptive_field_name c = ont.get_descriptive_field_name c' := by
            have := hx'
            have hq : ("question_" : String) ++ ont.get_descriptive_field_name c
                = "question_" ++ ont.get_descriptive_field_name c' := by
              show (make_question_entity ont t dtype c).entity_id = _
              rw [this]
            exact string_append_left_cancel hq
          exact hcc' (hdesc c' hc't c hct hc'rec hrec hdq.symm)
        · intro x hx
          rcases List.mem_cons.mp hx with hxh | hxt
          · exact ⟨c, List.mem_cons.mpr (Or.inl rfl), hct, hrec, hcp, hxh⟩
          · obtain ⟨c', hc', hc't, hc'rec, hc'p, hx'⟩ := ihs x hxt
            exact ⟨c', List.mem_cons.mpr (Or.inr hc'), hc't, hc'rec,
              fun hm => hc'p (List.mem_cons.mpr (Or.inr hm)), hx'⟩

theorem survey_ids_nodup (t : Table) (rids : List String)
    (hsafe : ∀ p₁ ∈ (t.rows.map (fun row => rowGet t.columns row "PROJECT_NAME")).filterMap id,
      ∀ p₂ ∈ (t.rows.map (fun row => rowGet t.columns row "PROJECT_NAME")).filterMap id,
      safe_project_name p₁ = safe_project_name p₂ → p₁ = p₂) :
    (((extract_survey_metadata t rids).1.map (fun e => e.entity_id)).Nodup)
    ∧ ∀ x ∈ (extract_survey_metadata t rids).1.map (fun e => e.entity_id),
        ∃ p, x = "survey_" ++ safe_project_name p := by
  by_cases hc : t.columns.contains "PROJECT_NAME"
  · have hids : (extract_survey_metadata t rids).1.map (fun e => e.entity_id)
        = (firstDedup ((t.rows.map (fun row =>
            rowGet t.columns row "PROJECT_NAME")).filterMap id)).map
          (fun p => "survey_" ++ safe_project_name p) := by
      simp only [extract_survey_metadata, if_pos hc, List.map_map]
      rfl
    obtain ⟨hnd, hmem⟩ := firstDedup_spec
      ((t.rows.map (fun row => rowGet t.columns row "PROJECT_NAME")).filterMap id)
    constructor
    · rw [hids]
      apply List.Nodup.map_on
      · intro p₁ hp₁ p₂ hp₂ heq
        exact hsafe p₁ (hmem p₁ hp₁) p₂ (hmem p₂ hp₂) (string_append_left_cancel heq)
      · exact hnd
    · intro x hx
      rw [hids] at hx
      obtain ⟨p, _, hxp⟩ := List.mem_map.mp hx
      exact ⟨p, hxp.symm⟩
  · have hc' : ¬ ("PROJECT_NAME" ∈ t.columns) := fun hm => hc (contains_iff_mem.mpr hm)
    constructor <;> simp [extract_survey_metadata, hc']

theorem respondent_id_mapping_get?_some {counter₀ : Nat} {ts : Nat → String} {n j : Nat}
    {r : String} (h : (respondent_id_mapping counter₀ ts n).get? j = some r) :
    j < n ∧ r = generated_respondent_id counter₀ ts j := by
  unfold respondent_id_mapping at h
  rw [List.get?_eq_getElem?, List.getElem?_map] at h
  by_cases hj : j < n
  · rw [List.getElem?_range hj] at h
    simp only [Option.map_some'] at h
    injection h with h'
    exact ⟨hj, h'.symm⟩
  · rw [List.getElem?_eq_none (by simp; omega)] at h
    exact absurd h (by simp)

theorem response_id_data (r k : String) :
    (r ++ "_" ++ k).data = r.data ++ '_' :: k.data := by
  rw [string_data_append, string_data_append]
  rw [List.append_assoc]
  rfl

theorem question_id_head (d : String) :
    ("question_" ++ d).data = 'q' :: ("uestion_".data ++ d.data) := by
  rw [string_data_append]
  rfl

theorem survey_id_head (d : String) :
    ("survey_" ++ d).data = 's' :: ("urvey_".data ++ d.data) := by
  rw [string_data_append]
  rfl

theorem nodup_append4 {α : Type} {l₁ l₂ l₃ l₄ : List α}
    (h₁ : l₁.Nodup) (h₂ : l₂.Nodup) (h₃ : l₃.Nodup) (h₄ : l₄.Nodup)
    (d₁₂ : ∀ x ∈ l₁, x ∉ l₂) (d₁₃ : ∀ x ∈ l₁, x ∉ l₃) (d₁₄ : ∀ x ∈ l₁, x ∉ l₄)
    (d₂₃ : ∀ x ∈ l₂, x ∉ l₃) (d₂₄ : ∀ x ∈ l₂, x ∉ l₄) (d₃₄ : ∀ x ∈ l₃, x ∉ l₄) :
    (l₁ ++ l₂ ++ l₃ ++ l₄).Nodup := by
  apply List.Nodup.append
  · apply List.Nodup.append
    · exact List.Nodup.append h₁ h₂ (fun a ha hb => d₁₂ a ha hb)
    · exact h₃
    · intro a ha hb
      rcases List.mem_append.mp ha with h | h
      · exact d₁₃ a h hb
      · exact d₂₃ a h hb
  · exact h₄
  · intro a ha hb
    rcases List.mem_append.mp ha with h | h
    · rcases List.mem_append.mp h with h' | h'
      · exact d₁₄ a h' hb
      · exact d₂₄ a h' hb
    · exact d₃₄ a h hb

/-- C1 (amended): within one extraction run the produced entity IDs are
pairwise distinct, under the conditions the ID formats rely on: at most
999999 rows (counters stay six digits wide), 14-character to-the-second
generation timestamps, category keys pairwise distinct and injective under
lowercasing, descriptive field names injective on the recognized columns,
and project names injective under the survey-ID sanitization
(lowercasing and replacing spaces and hyphens). Each injectivity proviso is
necessary; e.g. two project names differing only in letter case collide,
see the counterexample. -/
theorem C1_entity_ids_unique_amended (ont : Ontology) (t : Table) (ts : Nat → String)
    (iso : Nat → Nat → String) (year : Nat) (dtype : String → String)
    (hts : ∀ i, (ts i).length = 14)
    (hn : t.rows.length ≤ 999999)
    (hkeys : (ont.RELATIONSHIP_MAPPINGS.map Prod.fst).Nodup)
    (hlow : ∀ k₁ ∈ ont.RELATIONSHIP_MAPPINGS.map Prod.fst,
      ∀ k₂ ∈ ont.RELATIONSHIP_MAPPINGS.map Prod.fst, pyLower k₁ = pyLower k₂ → k₁ = k₂)
    (hdesc : ∀ c₁ ∈ t.columns, ∀ c₂ ∈ t.columns,
      (ont.get_all_survey_fields).contains (pyUpper c₁) = true →
      (ont.get_all_survey_fields).contains (pyUpper c₂) = true →
      ont.get_descriptive_field_name c₁ = ont.get_descriptive_field_name c₂ → c₁ = c₂)
    (hsafe : ∀ p₁ ∈ (t.rows.map (fun row => rowGet t.columns row "PROJECT_NAME")).filterMap id,
      ∀ p₂ ∈ (t.rows.map (fun row => rowGet t.columns row "PROJECT_NAME")).filterMap id,
      safe_project_name p₁ = safe_project_name p₂ → p₁ = p₂) :
    ((build_knowledge_graph ont t ts iso year dtype).entities.map
      (fun e => e.entity_id)).Nodup := by
  have h_rids_fact : ∀ j r, (respondent_id_mapping 1 ts t.rows.length).get? j = some r →
      j < t.rows.length ∧ r = generated_respondent_id 1 ts j :=
    fun j r h => respondent_id_mapping_get?_some h
  have h_rids_len : ∀ j r, (respondent_id_mapping 1 ts t.rows.length).get? j = some r →
      r.data.length = 20 := by
    intro j r h
    obtain ⟨hj, hr⟩ := h_rids_fact j r h
    rw [hr]
    exact gid_length 1 ts j (hts j) (by omega)
  have h_rids_inj : ∀ j₁ j₂ r₁ r₂,
      (respondent_id_mapping 1 ts t.rows.length).get? j₁ = some r₁ →
      (respondent_id_mapping 1 ts t.rows.length).get? j₂ = some r₂ → j₁ ≠ j₂ → r₁ ≠ r₂ := by
    intro j₁ j₂ r₁ r₂ h₁ h₂ hne heq
    obtain ⟨_, hr₁⟩ := h_rids_fact j₁ r₁ h₁
    obtain ⟨_, hr₂⟩ := h_rids_fact j₂ r₂ h₂
    rw [hr₁, hr₂] at heq
    exact hne (generated_respondent_id_inj 1 ts hts j₁ j₂ heq)
  have h_rids_head : ∀ j r, (respondent_id_mapping 1 ts t.rows.length).get? j = some r →
      ∃ c cs, r.data = c :: cs ∧ c.isDigit = true := by
    intro j r h
    obtain ⟨_, hr⟩ := h_rids_fact j r h
    rw [hr]
    exact gid_head_digit 1 ts j
  obtain ⟨hBn, hBs⟩ := extract_response_ids_nodup ont t.columns
    (respondent_id_mapping 1 ts t.rows.length) iso hkeys hlow h_rids_inj h_rids_len t.rows 0
  obtain ⟨hCn, hCs⟩ := question_ids_nodup ont t dtype hdesc t.columns [] (fun c h => h)
  obtain ⟨hDn, hDs⟩ := survey_ids_nodup t (respondent_id_mapping 1 ts t.rows.length) hsafe
  have hAn : (respondent_id_mapping 1 ts t.rows.length).Nodup :=
    respondent_id_mapping_nodup 1 ts t.rows.length hts
  have hAs : ∀ x ∈ respondent_id_mapping 1 ts t.rows.length,
      ∃ i, i < t.rows.length ∧ x = generated_respondent_id 1 ts i := by
    intro x hx
    obtain ⟨i, hi, hxi⟩ := List.mem_map.mp hx
    exact ⟨i, List.mem_range.mp hi, hxi.symm⟩
  have hA_len : ∀ x ∈ respondent_id_mapping 1 ts t.rows.length, x.data.length = 20 := by
    intro x hx
    obtain ⟨i, hi, hxi⟩ := hAs x hx
    rw [hxi]
    exact gid_length 1 ts i (hts i) (by omega)
  have hA_head : ∀ x ∈ respondent_id_mapping 1 ts t.rows.length,
      ∃ c cs, x.data = c :: cs ∧ c.isDigit = true := by
    intro x hx
    obtain ⟨i, _, hxi⟩ := hAs x hx
    rw [hxi]
    exact gid_head_digit 1 ts i
  have hB_shape : ∀ x ∈ (extract_response_entities ont t.columns
      (respondent_id_mapping 1 ts t.rows.length) iso 0 t.rows).1.map (fun e => e.entity_id),
      21 ≤ x.data.length ∧ ∃ c cs, x.data = c :: cs ∧ c.isDigit = true := by
    intro x hx
    obtain ⟨j, r, k, _, hjr, _, hx'⟩ := hBs x hx
    have hrlen := h_rids_len j r hjr
    obtain ⟨c, cs, hcd, hdig⟩ := h_rids_head j r hjr
    constructor
    · rw [hx', response_id_data, List.length_append, hrlen, List.length_cons]
      omega
    · refine ⟨c, cs ++ '_' :: (pyLower k).data, ?_, hdig⟩
      rw [hx', response_id_data, hcd]
      rfl
  have hC_head : ∀ x ∈ (extract_question_entities_from ont t dtype [] t.columns).map
      (fun e => e.entity_id), ∃ rest, x.data = 'q' :: rest := by
    intro x hx
    obtain ⟨c, _, _, _, _, hx'⟩ := hCs x hx
    rw [hx', question_id_head]
    exact ⟨_, rfl⟩
  have hD_head : ∀ x ∈ (extract_survey_metadata t
      (respondent_id_mapping 1 ts t.rows.length)).1.map (fun e => e.entity_id),
      ∃ rest, x.data = 's' :: rest := by
    intro x hx
    obtain ⟨p, hx'⟩ := hDs x hx
    rw [hx', survey_id_head]
    exact ⟨_, rfl⟩
  have hdigit_q : ∀ (x : String), (∃ c cs, x.data = c :: cs ∧ c.isDigit = true) →
      (∃ rest, x.data = 'q' :: rest) → False := by
    intro x ⟨c, cs, hd, hdig⟩ ⟨rest, hq⟩
    rw [hd] at hq
    have hcq : c = 'q' := List.head_eq_of_cons_eq hq
    rw [hcq] at hdig
    exact absurd hdig (by decide)
  have hdigit_s : ∀ (x : String), (∃ c cs, x.data = c :: cs ∧ c.isDigit = true) →
      (∃ rest, x.data = 's' :: rest) → False := by
    intro x ⟨c, cs, hd, hdig⟩ ⟨rest, hq⟩
    rw [hd] at hq
    have hcq : c = 's' := List.head_eq_of_cons_eq hq
    rw [hcq] at hdig
    exact absurd hdig (by decide)
  have hbuild : (build_knowledge_graph ont t ts iso year dtype).entities
      = extract_respondent_entities t.columns 1 ts year 0 t.rows
        ++ (extract_response_entities ont t.columns
            (respondent_id_mapping 1 ts t.rows.length) iso 0 t.rows).1
        ++ extract_question_entities ont t dtype
        ++ (extract_survey_metadata t (respondent_id_mapping 1 ts t.rows.length)).1 := rfl
  rw [hbuild, List.map_append, List.map_append, List.map_append,
    build_respondent_ids t ts year]
  apply nodup_append4 hAn hBn hCn hDn
  · intro x hx hx'
    have h20 := hA_len x hx
    obtain ⟨h21, _⟩ := hB_shape x hx'
    omega
  · intro x hx hx'
    exact hdigit_q x (hA_head x hx) (hC_head x hx')
  · intro x hx hx'
    exact hdigit_s x (hA_head x hx) (hD_head x hx')
  · intro x hx hx'
    exact hdigit_q x (hB_shape x hx).2 (hC_head x hx')
  · intro x hx hx'
    exact hdigit_s x (hB_shape x hx).2 (hD_head x hx')
  · intro x hx hx'
    obtain ⟨r₁, hq⟩ := hC_head x hx
    obtain ⟨r₂, hs⟩ := hD_head x hx'
    rw [hq] at hs
    have : 'q' = 's' := List.head_eq_of_cons_eq hs
    exact absurd this (by decide)

/-- Counterexample to C1 as stated: two rows whose `PROJECT_NAME` values
differ only in letter case (`"A"` and `"a"`) produce two `Survey` entities
with the same entity ID `survey_a`, so the run's entity IDs are not pairwise
distinct. -/
theorem C1_counterexample :
    ¬ ((build_knowledge_graph ontTrivial tCaseProjects tsConst isoConst 2025
        dtypeConst).entities.map (fun e => e.entity_id)).Nodup := by
  decide

/-- Witness for the amended C1 on a concrete one-row table. -/
theorem C1_witness :
    ((build_knowledge_graph ontTrivial tOneRow tsConst isoConst 2025
        dtypeConst).entities.map (fun e => e.entity_id)).Nodup := by
  have hts : ∀ i : Nat, (tsConst i).length = 14 := fun i => by
    show ("20250101120000" : String).length = 14
    decide
  exact C1_entity_ids_unique_amended ontTrivial tOneRow tsConst isoConst 2025 dtypeConst
    hts (by decide) (by decide) (by decide) (by decide) (by decide)
